import Mathlib

/-!
# gchat: authentication handlers, session tokens, cookies and the message store

A shallow embedding of `main.go`, `utils.go`, `api.go` and the parts of
`storage.go` that the handlers and `CreateMessages` use.

Go `int` is the 64-bit signed integer; Go strings are Lean strings and
`[]byte` values are lists of byte values.  Code that lives outside the
repository (the `net/http` response writer, `golang-jwt/jwt`, `crypto/hmac`,
`strconv`) is written out after its documented behaviour; primitives whose
internals play no part (base64, JSON, the hash functions, bcrypt, the cookie
wire format) are fields of `Lib` and every theorem holds for all of them.
-/

set_option maxRecDepth 100000

namespace GChat

/-! ## Go basics -/

/-- Go `error` values, identified by their message. -/
abbrev GoError := String

deriving instance DecidableEq for Except

/-- Conversion to Go `int` (64-bit two's complement). -/
def goInt (v : Int) : Int := (v + 2 ^ 63) % 2 ^ 64 - 2 ^ 63

/-- The bytes of a Go string, `[]byte(s)`. -/
def StringBytes (s : String) : List Nat :=
  (s.data.flatMap String.utf8EncodeChar).map UInt8.toNat

def splitAux (sep : Char) : List Char → List Char → List String
  | [], cur => [String.mk cur.reverse]
  | c :: cs, cur =>
    if c = sep then String.mk cur.reverse :: splitAux sep cs []
    else splitAux sep cs (c :: cur)

/-- `strings.Split(s, sep)` for a one-character separator. -/
def Split (s : String) (sep : Char) : List String := splitAux sep s.data []

/-- `strconv.Itoa`. -/
def Itoa (i : Int) : String :=
  if i < 0 then "-" ++ Nat.repr i.natAbs else Nat.repr i.natAbs

def digitVal (c : Char) : Option Nat :=
  if 48 ≤ c.toNat ∧ c.toNat ≤ 57 then some (c.toNat - 48) else none

def parseDigits : List Char → Nat → Option Nat
  | [], n => some n
  | c :: cs, n =>
    match digitVal c with
    | none => none
    | some d => parseDigits cs (n * 10 + d)

/-- `strconv.Atoi`: an optional sign, then one or more decimal digits, the
value within the range of `int`. -/
def Atoi (s : String) : Except GoError Int :=
  let syntaxError : GoError := "strconv.Atoi: parsing " ++ s ++ ": invalid syntax"
  let rangeError : GoError := "strconv.Atoi: parsing " ++ s ++ ": value out of range"
  match s.data with
  | [] => .error syntaxError
  | c :: cs =>
    let neg := decide (c = '-')
    let ds := if c = '-' ∨ c = '+' then cs else c :: cs
    match ds with
    | [] => .error syntaxError
    | _ :: _ =>
      match parseDigits ds 0 with
      | none => .error syntaxError
      | some n =>
        if neg then (if n ≤ 2 ^ 63 then .ok (-(n : Int)) else .error rangeError)
        else (if n < 2 ^ 63 then .ok (n : Int) else .error rangeError)

/-! ## `time` constants and `main.go` constants -/

def Nanosecond : Int := 1
def Microsecond : Int := 1000 * Nanosecond
def Millisecond : Int := 1000 * Microsecond
def Second : Int := 1000 * Millisecond
def Minute : Int := 60 * Second
def Hour : Int := 60 * Minute

def Domain : String := "localhost"
def Path : String := "/"
/-- `CookieLifeTime = time.Hour * 24 * 30`, a `time.Duration` (nanoseconds). -/
def CookieLifeTime : Int := Hour * 24 * 30
def serverPort : String := ":3000"
def JwtSecret : String := "abc123"

/-! ## `net/http`: cookies, headers, response writer -/

inductive SameSite
  | SameSiteDefaultMode
  | SameSiteLaxMode
  | SameSiteStrictMode
  | SameSiteNoneMode
  deriving DecidableEq, Repr

/-- The fields of `http.Cookie` that `CreateCookie` fills in.  `Expires` is a
point in time in nanoseconds since the epoch; `MaxAge` is in seconds. -/
structure Cookie where
  Name : String
  Value : String
  Path : String
  Domain : String
  Expires : Int
  MaxAge : Int
  Secure : Bool
  HttpOnly : Bool
  SameSite : SameSite
  deriving DecidableEq, Repr

/-- `CreateCookie` of `utils.go`; `now` is the value of `time.Now()`. -/
def CreateCookie (now : Int) (name : String) (value : String) : Cookie :=
  { Name := name
    Value := value
    Path := Path
    Domain := Domain
    Expires := now + CookieLifeTime
    MaxAge := goInt CookieLifeTime
    Secure := true
    HttpOnly := true
    SameSite := SameSite.SameSiteDefaultMode }

/-- An `http.Header`: the key/value lines in the order they were added. -/
abbrev Header := List (String × String)

def Header.Add (h : Header) (key value : String) : Header := h ++ [(key, value)]

def Header.Del (h : Header) (key : String) : Header := h.filter (fun kv => kv.1 ≠ key)

def Header.Set (h : Header) (key value : String) : Header :=
  Header.Del h key ++ [(key, value)]

def Header.Values (h : Header) (key : String) : List String :=
  (h.filter (fun kv => kv.1 = key)).map (fun kv => kv.2)

/-- An `http.ResponseWriter`.  `header` is the map `Header()` hands out;
`sent` is the copy of it taken by the first `WriteHeader`, the header of the
response that goes out: "changing the header map after a call to WriteHeader
(or Write) has no effect". -/
structure ResponseWriter where
  header : Header
  wroteHeader : Bool
  status : Int
  sent : Header
  body : String
  deriving DecidableEq, Repr

/-- A writer nothing has been written to. -/
def ResponseWriter.fresh : ResponseWriter :=
  { header := [], wroteHeader := false, status := 0, sent := [], body := "" }

/-- `w.WriteHeader(code)` for a status code `net/http` accepts (100 to 999):
the first call fixes status and header; a later call is superfluous and
ignored. -/
def ResponseWriter.WriteHeader (w : ResponseWriter) (code : Int) : ResponseWriter :=
  if w.wroteHeader then w
  else { w with wroteHeader := true, status := code, sent := w.header }

/-- `w.Write(data)`: writes the header with status 200 when none was written
yet, then appends to the body. -/
def ResponseWriter.Write (w : ResponseWriter) (data : String) : ResponseWriter :=
  let w1 := if w.wroteHeader then w else w.WriteHeader 200
  { w1 with body := w1.body ++ data }

def StatusOK : Int := 200
def StatusBadRequest : Int := 400
def StatusUnauthorized : Int := 401
def StatusNotFound : Int := 404
def StatusInternalServerError : Int := 500

/-- `http.Error(w, error, code)`. -/
def HttpError (w : ResponseWriter) (error : String) (code : Int) : ResponseWriter :=
  let h := Header.Del w.header "Content-Length"
  let h := Header.Set h "Content-Type" "text/plain; charset=utf-8"
  let h := Header.Set h "X-Content-Type-Options" "nosniff"
  let w1 := { w with header := h }
  let w2 := w1.WriteHeader code
  w2.Write (error ++ "\n")

/-- `WriteJSON` of `utils.go`.  `marshal` is `json.Marshal` at the type of `v`;
`Encode` writes the encoding followed by a newline, or fails and writes
nothing. -/
def WriteJSON {α : Type} (marshal : α → Except GoError String) (w : ResponseWriter)
    (v : α) (status : Int) : ResponseWriter × Option GoError :=
  let w1 := w.WriteHeader status
  let w2 := { w1 with header := Header.Add w1.header "Content-Type" "application/json" }
  match marshal v with
  | .error e => (w2, some e)
  | .ok s => (w2.Write (s ++ "\n"), none)

/-! ## Values, records and the library primitives -/

/-- A value held in a Go `interface{}`: what a key argument or a decoded JSON
field can be.  `num` is a JSON number (by its `int64` conversion) and `other`
a JSON array or object (by its text). -/
inductive Any
  | null
  | str (s : String)
  | bytes (b : List Nat)
  | num (n : Int)
  | bool (b : Bool)
  | other (json : String)
  deriving DecidableEq, Repr

/-- `UserJSON` of `utils.go`. -/
structure UserJSON where
  Id : Int
  Username : String
  PasswordHashed : String
  ChatIds : List Int
  deriving DecidableEq, Repr

/-- `MessageJSON` of `utils.go`. -/
structure MessageJSON where
  Id : Int
  ChatId : Int
  Text : String
  AuthorName : String
  Timestamp : Int
  deriving DecidableEq, Repr

/-- `ChatJSON` of `utils.go`. -/
structure ChatJSON where
  Id : Int
  Usernames : List String
  Messages : List MessageJSON
  deriving DecidableEq, Repr

inductive HashAlg
  | SHA256
  | SHA384
  | SHA512
  deriving DecidableEq, Repr

/-- The block size of the hash, `hash.Hash.BlockSize()`. -/
def HashAlg.BlockSize : HashAlg → Nat
  | .SHA256 => 64
  | .SHA384 => 128
  | .SHA512 => 128

/-- The primitives of the libraries the program is linked with.  Go strings
are byte sequences, so `[]byte(s)` and `string(b)` are left out where a
primitive only passes text through (bcrypt, JSON of the request body). -/
structure Lib where
  /-- `jwt.EncodeSegment`: unpadded base64url. -/
  EncodeSegment : List Nat → String
  /-- `jwt.DecodeSegment`. -/
  DecodeSegment : String → Except GoError (List Nat)
  /-- `json.Marshal` of a `map[string]interface{}`. -/
  jsonMarshalMap : List (String × Any) → Except GoError (List Nat)
  /-- `json.Unmarshal` into a `map[string]interface{}`. -/
  jsonUnmarshalMap : List Nat → Except GoError (List (String × Any))
  /-- `json.NewDecoder(..).Decode` into a `jwt.MapClaims`. -/
  jsonDecodeMap : List Nat → Except GoError (List (String × Any))
  /-- `h.Write(b); h.Sum(nil)` for the hash functions of `crypto`. -/
  hashSum : HashAlg → List Nat → List Nat
  /-- `Sign` of the signing methods that are not `*jwt.SigningMethodHMAC`. -/
  signOther : String → String → Any → Except GoError String
  /-- `Verify` of the signing methods that are not `*jwt.SigningMethodHMAC`. -/
  verifyOther : String → String → String → Any → Option GoError
  /-- `json.NewDecoder(r.Body).Decode` into a fresh `UserJSON`. -/
  jsonDecodeUser : String → Except GoError UserJSON
  /-- `json.Marshal` of a `*UserJSON`. -/
  jsonMarshalUser : UserJSON → Except GoError String
  /-- `bcrypt.GenerateFromPassword(password, cost)`. -/
  GenerateFromPassword : String → Int → Except GoError String
  /-- `bcrypt.CompareHashAndPassword(hashedPassword, password)`. -/
  CompareHashAndPassword : String → String → Option GoError
  /-- `(*http.Cookie).String()`, the `Set-Cookie` line. -/
  cookieString : Cookie → String

/-! ## `crypto/hmac` and `golang-jwt/jwt` -/

/-- `hmac.New(h, key)`, `Write(msg)`, `Sum(nil)`: a key longer than the block
is hashed, the key is copied into a zeroed block, and the two pads are the
block xor `0x36` and xor `0x5c`. -/
def hmacSum (sum : List Nat → List Nat) (blocksize : Nat) (key msg : List Nat) : List Nat :=
  let key1 := if key.length > blocksize then sum key else key
  let block := (key1 ++ List.replicate (blocksize - key1.length) 0).take blocksize
  let ipad := block.map (fun b => b ^^^ 0x36)
  let opad := block.map (fun b => b ^^^ 0x5c)
  sum (opad ++ sum (ipad ++ msg))

/-- A `jwt.SigningMethod`: the HMAC family (`*jwt.SigningMethodHMAC`) or one of
the other registered methods (RSA, RSA-PSS, ECDSA, Ed25519, none). -/
inductive SigningMethod
  | HMAC (name : String) (hash : HashAlg)
  | Other (name : String)
  deriving DecidableEq, Repr

def SigningMethodHS256 : SigningMethod := .HMAC "HS256" .SHA256
def SigningMethodHS384 : SigningMethod := .HMAC "HS384" .SHA384
def SigningMethodHS512 : SigningMethod := .HMAC "HS512" .SHA512

def SigningMethod.Alg : SigningMethod → String
  | .HMAC name _ => name
  | .Other name => name

/-- `jwt.GetSigningMethod(alg)`: the registered method of that name, if any. -/
def GetSigningMethod (alg : String) : Option SigningMethod :=
  if alg = "HS256" then some SigningMethodHS256
  else if alg = "HS384" then some SigningMethodHS384
  else if alg = "HS512" then some SigningMethodHS512
  else if alg ∈ ["RS256", "RS384", "RS512", "PS256", "PS384", "PS512",
      "ES256", "ES384", "ES512", "EdDSA", "none"] then some (.Other alg)
  else none

def ErrInvalidKeyType : GoError := "key is of invalid type"
def ErrSignatureInvalid : GoError := "signature is invalid"

/-- `Sign(signingString, key)`.  The HMAC methods take a `[]byte` key and
nothing else. -/
def SigningMethod.Sign (lib : Lib) (m : SigningMethod) (signingString : String) (key : Any) :
    Except GoError String :=
  match m with
  | .HMAC _ h =>
    match key with
    | .bytes keyBytes =>
      .ok (lib.EncodeSegment
        (hmacSum (lib.hashSum h) h.BlockSize keyBytes (StringBytes signingString)))
    | _ => .error ErrInvalidKeyType
  | .Other name => lib.signOther name signingString key

/-- `Verify(signingString, signature, key)`; `none` is the nil error. -/
def SigningMethod.Verify (lib : Lib) (m : SigningMethod) (signingString signature : String)
    (key : Any) : Option GoError :=
  match m with
  | .HMAC _ h =>
    match key with
    | .bytes keyBytes =>
      match lib.DecodeSegment signature with
      | .error e => some e
      | .ok sig =>
        if sig = hmacSum (lib.hashSum h) h.BlockSize keyBytes (StringBytes signingString)
        then none else some ErrSignatureInvalid
    | _ => some ErrInvalidKeyType
  | .Other name => lib.verifyOther name signingString signature key

def verifyExp (exp now : Int) (required : Bool) : Bool :=
  if exp = 0 then !required else decide (now ≤ exp)

def verifyIat (iat now : Int) (required : Bool) : Bool :=
  if iat = 0 then !required else decide (now ≥ iat)

def verifyNbf (nbf now : Int) (required : Bool) : Bool :=
  if nbf = 0 then !required else decide (now ≥ nbf)

/-- `MapClaims.VerifyExpiresAt(cmp, req)`. -/
def VerifyExpiresAt (m : List (String × Any)) (cmp : Int) (req : Bool) : Bool :=
  match m.lookup "exp" with
  | none => !req
  | some (.num v) => verifyExp v cmp req
  | some _ => false

/-- `MapClaims.VerifyIssuedAt(cmp, req)`. -/
def VerifyIssuedAt (m : List (String × Any)) (cmp : Int) (req : Bool) : Bool :=
  match m.lookup "iat" with
  | none => !req
  | some (.num v) => verifyIat v cmp req
  | some _ => false

/-- `MapClaims.VerifyNotBefore(cmp, req)`. -/
def VerifyNotBefore (m : List (String × Any)) (cmp : Int) (req : Bool) : Bool :=
  match m.lookup "nbf" with
  | none => !req
  | some (.num v) => verifyNbf v cmp req
  | some _ => false

/-- `MapClaims.Valid()` at the time `now` (seconds); `none` is the nil error,
otherwise the message of the last check that failed. -/
def MapClaimsValid (m : List (String × Any)) (now : Int) : Option GoError :=
  let e1 : Option GoError := if VerifyExpiresAt m now false then none else some "Token is expired"
  let e2 : Option GoError :=
    if VerifyIssuedAt m now false then e1 else some "Token used before issued"
  if VerifyNotBefore m now false then e2 else some "Token is not valid yet"

/-- A `jwt.Claims` value: a `jwt.MapClaims`, or another implementation given by
its JSON fields and the verdict of its `Valid` method. -/
inductive Claims
  | MapClaims (m : List (String × Any))
  | Other (fields : List (String × Any)) (valid : Option GoError)
  deriving DecidableEq, Repr

def Claims.fields : Claims → List (String × Any)
  | .MapClaims m => m
  | .Other fields _ => fields

def Claims.Valid (c : Claims) (now : Int) : Option GoError :=
  match c with
  | .MapClaims m => MapClaimsValid m now
  | .Other _ valid => valid

/-- A `jwt.Token`. -/
structure Token where
  Raw : String
  Method : SigningMethod
  Header : List (String × Any)
  Claims : Claims
  Signature : String
  Valid : Bool
  deriving DecidableEq, Repr

/-- `jwt.NewWithClaims(method, claims)`. -/
def NewWithClaims (method : SigningMethod) (claims : Claims) : Token :=
  { Raw := ""
    Method := method
    Header := [("typ", Any.str "JWT"), ("alg", Any.str method.Alg)]
    Claims := claims
    Signature := ""
    Valid := false }

/-- `(*Token).SigningString()`. -/
def Token.SigningString (lib : Lib) (t : Token) : Except GoError String :=
  match lib.jsonMarshalMap t.Header with
  | .error e => .error e
  | .ok headerJSON =>
    match lib.jsonMarshalMap t.Claims.fields with
    | .error e => .error e
    | .ok claimsJSON =>
      .ok (lib.EncodeSegment headerJSON ++ "." ++ lib.EncodeSegment claimsJSON)

/-- `(*Token).SignedString(key)`. -/
def Token.SignedString (lib : Lib) (t : Token) (key : Any) : Except GoError String :=
  match t.SigningString lib with
  | .error e => .error e
  | .ok sstr =>
    match t.Method.Sign lib sstr key with
    | .error e => .error e
    | .ok sig => .ok (sstr ++ "." ++ sig)

/-- `(*Parser).ParseUnverified(tokenString, MapClaims{})`: the token and its
three segments. -/
def ParseUnverified (lib : Lib) (tokenString : String) :
    Except GoError (Token × String × String × String) :=
  match Split tokenString '.' with
  | [p0, p1, p2] =>
    match lib.DecodeSegment p0 with
    | .error e =>
      if tokenString.toLower.startsWith "bearer " then
        .error "tokenstring should not contain 'bearer '"
      else .error e
    | .ok headerBytes =>
      match lib.jsonUnmarshalMap headerBytes with
      | .error e => .error e
      | .ok header =>
        match lib.DecodeSegment p1 with
        | .error e => .error e
        | .ok claimBytes =>
          match lib.jsonDecodeMap claimBytes with
          | .error e => .error e
          | .ok claims =>
            match header.lookup "alg" with
            | some (.str alg) =>
              match GetSigningMethod alg with
              | none => .error "signing method (alg) is unavailable."
              | some method =>
                .ok ({ Raw := tokenString, Method := method, Header := header,
                       Claims := Claims.MapClaims claims, Signature := "", Valid := false },
                     p0, p1, p2)
            | _ => .error "signing method (alg) is unspecified."
  | _ => .error "token contains an invalid number of segments"

/-- `jwt.Parse(tokenString, keyFunc)` at the time `now`: parse, ask `keyFunc` for
the key, validate the claims, verify the signature. -/
def Parse (lib : Lib) (now : Int) (tokenString : String)
    (keyFunc : Token → Except GoError Any) : Except GoError Token :=
  match ParseUnverified lib tokenString with
  | .error e => .error e
  | .ok (token, p0, p1, p2) =>
    match keyFunc token with
    | .error e => .error e
    | .ok key =>
      let vErr := token.Claims.Valid now
      match token.Method.Verify lib (p0 ++ "." ++ p1) p2 key with
      | some e => .error e
      | none =>
        match vErr with
        | some e => .error e
        | none => .ok { token with Signature := p2, Valid := true }

/-! ## `utils.go`: session tokens -/

/-- The claims `CreateJWT` puts in the token. -/
def CreateJWT.claims (userId : Int) : Claims :=
  Claims.MapClaims [("userId", Any.str (Itoa userId))]

/-- `CreateJWT` of `utils.go`.  `JwtSecret` is an untyped string constant, so
the key handed to `SignedString` is a `string`. -/
def CreateJWT (lib : Lib) (userId : Int) : Except GoError String :=
  let token := NewWithClaims SigningMethodHS256 (CreateJWT.claims userId)
  token.SignedString lib (Any.str JwtSecret)

/-- The key function `ValidateJWT` passes to `jwt.Parse`. -/
def ValidateJWT.keyFunc (token : Token) : Except GoError Any :=
  match token.Method with
  | .HMAC _ _ => .ok (Any.bytes (StringBytes JwtSecret))
  | .Other _ =>
    .error ("Unexpected signing method: " ++
      (match token.Header.lookup "alg" with
       | some (.str alg) => alg
       | _ => "<nil>"))

/-- `ValidateJWT` of `utils.go`; `now` is the time of the call in seconds. -/
def ValidateJWT (lib : Lib) (now : Int) (tokenString : String) : Except GoError Token :=
  Parse lib now tokenString ValidateJWT.keyFunc

/-! ## `storage.go`: the `Storage` interface -/

/-- The operations of `Storage` the handlers call, over a store state `σ`. -/
structure Storage (σ : Type) where
  CreateUser : UserJSON → σ → Except GoError UserJSON × σ
  GetUserById : Int → σ → Except GoError UserJSON × σ
  GetUserByUsername : String → σ → Except GoError UserJSON × σ

/-- An `http.Request`: its body, its cookies (name and value) in the order of
the `Cookie` header, and the values of its context, innermost first. -/
structure Request where
  Body : String
  Cookies : List (String × String)
  Context : List (String × UserJSON)
  deriving DecidableEq, Repr

def ErrNoCookie : GoError := "http: named cookie not present"

/-- `r.Cookie(name)`: the value of the first cookie of that name. -/
def Request.Cookie (r : Request) (name : String) : Except GoError String :=
  if name = "" then .error ErrNoCookie
  else
    match r.Cookies.lookup name with
    | none => .error ErrNoCookie
    | some value => .ok value

def ContextKeyUser : String := "user"

/-- `r.WithContext(context.WithValue(r.Context(), key, user))`. -/
def Request.WithValue (r : Request) (key : String) (user : UserJSON) : Request :=
  { r with Context := (key, user) :: r.Context }

/-- `r.Context().Value(key)`. -/
def Request.Value (r : Request) (key : String) : Option UserJSON := r.Context.lookup key

/-- What a handler does besides writing the response: the calls of the
`Storage` interface (all fourteen operations are listed), the tokens it asks
`CreateJWT` for, and the handler a middleware passes the request on to. -/
inductive Event
  | CreateUser (user : UserJSON)
  | GetUserById (id : Int)
  | GetUserByUsername (username : String)
  | UpdateUser (user : UserJSON)
  | DeleteUserById (id : Int)
  | DeleteUserByUsername (username : String)
  | CreateChat (chat : ChatJSON)
  | GetChatById (id : Int)
  | UpdateChat (chat : ChatJSON)
  | DeleteChatById (id : Int)
  | CreateMessages (messages : List MessageJSON)
  | GetMessagesByChatId (id : Int)
  | DeleteMessagesByChatId (id : Int)
  | DeleteMessagesByAuthorName (name : String)
  | CreateJWT (userId : Int)
  | next (r : Request)
  deriving DecidableEq, Repr

/-- The store operations that create, update or delete a record. -/
def Event.writesStore : Event → Bool
  | .CreateUser _ => true
  | .UpdateUser _ => true
  | .DeleteUserById _ => true
  | .DeleteUserByUsername _ => true
  | .CreateChat _ => true
  | .UpdateChat _ => true
  | .DeleteChatById _ => true
  | .CreateMessages _ => true
  | .DeleteMessagesByChatId _ => true
  | .DeleteMessagesByAuthorName _ => true
  | _ => false

def Event.isCreateUser : Event → Bool
  | .CreateUser _ => true
  | _ => false

def Event.isCreateJWT : Event → Bool
  | .CreateJWT _ => true
  | _ => false

def Event.isNext : Event → Bool
  | .next _ => true
  | _ => false

/-- The state a handler runs in: the store, the response writer, the lines
logged with `slog.Error`, and the events so far. -/
structure Exec (σ : Type) where
  store : σ
  w : ResponseWriter
  logs : List String
  trace : List Event

/-- The state at the start of a request. -/
def Exec.start {σ : Type} (store : σ) : Exec σ :=
  { store := store, w := ResponseWriter.fresh, logs := [], trace := [] }

def Exec.slog {σ : Type} (x : Exec σ) (msg : String) : Exec σ :=
  { x with logs := x.logs ++ [msg] }

def Exec.httpError {σ : Type} (x : Exec σ) (error : String) (code : Int) : Exec σ :=
  { x with w := HttpError x.w error code }

def Exec.emit {σ : Type} (x : Exec σ) (ev : Event) : Exec σ :=
  { x with trace := x.trace ++ [ev] }

/-- `http.SetCookie(w, cookie)`. -/
def SetCookie (lib : Lib) (w : ResponseWriter) (cookie : Cookie) : ResponseWriter :=
  let v := lib.cookieString cookie
  if v ≠ "" then { w with header := Header.Add w.header "Set-Cookie" v } else w

def DefaultCost : Int := 10

/-! ## `api.go`: the handlers -/

/-- `HandleRegister` of `api.go`. -/
def HandleRegister {σ : Type} (lib : Lib) (S : Storage σ) (now : Int) (x : Exec σ)
    (r : Request) : Exec σ :=
  -- get register request
  match lib.jsonDecodeUser r.Body with
  | .error e =>
    (x.slog ("handle register: json decode error: " ++ e)).httpError
      "internal server error" StatusInternalServerError
  | .ok registerReq =>
    -- check for existing user
    let found := S.GetUserByUsername registerReq.Username x.store
    let x1 := { x.emit (Event.GetUserByUsername registerReq.Username) with store := found.2 }
    let x2 :=
      match found.1 with
      | .ok _ =>
        (x1.slog ("handle register: username " ++ registerReq.Username ++
          " already exists")).httpError
          ("username " ++ registerReq.Username ++ " is taken") StatusBadRequest
      | .error _ => x1
    -- encrypt password
    match lib.GenerateFromPassword registerReq.PasswordHashed DefaultCost with
    | .error e =>
      (x2.slog ("handle register: bcrypt password gen error: " ++ e)).httpError
        "internal server error" StatusInternalServerError
    | .ok encPass =>
      let registerReq1 := { registerReq with PasswordHashed := encPass }
      -- create user
      let created := S.CreateUser registerReq1 x2.store
      let x3 := { x2.emit (Event.CreateUser registerReq1) with store := created.2 }
      match created.1 with
      | .error e =>
        (x3.slog ("handle register: create user failed: " ++ e)).httpError
          "internal server error" StatusInternalServerError
      | .ok user =>
        -- create access token
        let x4 := x3.emit (Event.CreateJWT user.Id)
        match CreateJWT lib user.Id with
        | .error e =>
          (x4.slog ("handle register: create jwt error: " ++ e)).httpError
            "internal server error" StatusInternalServerError
        | .ok tokenString =>
          -- create cookie
          let cookie := CreateCookie now "accessToken" tokenString
          let x5 := { x4 with w := SetCookie lib x4.w cookie }
          -- response
          let written := WriteJSON lib.jsonMarshalUser x5.w user StatusOK
          let x6 := { x5 with w := written.1 }
          match written.2 with
          | some e =>
            (x6.slog ("handle register: write json error: " ++ e)).httpError
              "internal server error" StatusInternalServerError
          | none => x6

/-- `(*UserJSON).ValidatePassword` of `utils.go`. -/
def UserJSON.ValidatePassword (lib : Lib) (u : UserJSON) (pass : String) : Bool :=
  lib.CompareHashAndPassword u.PasswordHashed pass = none

/-- `HandleLogin` of `api.go`. -/
def HandleLogin {σ : Type} (lib : Lib) (S : Storage σ) (now : Int) (x : Exec σ)
    (r : Request) : Exec σ :=
  -- get login request
  match lib.jsonDecodeUser r.Body with
  | .error e =>
    (x.slog ("handle login: json decode error: " ++ e)).httpError
      "internal server error" StatusInternalServerError
  | .ok loginReq =>
    -- get user
    let found := S.GetUserByUsername loginReq.Username x.store
    let x1 := { x.emit (Event.GetUserByUsername loginReq.Username) with store := found.2 }
    match found.1 with
    | .error _ =>
      (x1.slog ("handle login: user " ++ loginReq.Username ++ " not found")).httpError
        ("user " ++ loginReq.Username ++ " not found") StatusNotFound
    | .ok user =>
      -- validate password
      if !user.ValidatePassword lib loginReq.PasswordHashed then
        (x1.slog "handle login: wrong password").httpError "wrong password" StatusBadRequest
      else
        -- create access token
        let x2 := x1.emit (Event.CreateJWT user.Id)
        match CreateJWT lib user.Id with
        | .error e =>
          (x2.slog ("handle login: create jwt error: " ++ e)).httpError
            "internal server error" StatusInternalServerError
        | .ok token =>
          -- create cookie
          let cookie := CreateCookie now "accessToken" token
          let x3 := { x2 with w := SetCookie lib x2.w cookie }
          -- response
          let written := WriteJSON lib.jsonMarshalUser x3.w user StatusOK
          let x4 := { x3 with w := written.1 }
          match written.2 with
          | some e =>
            (x4.slog ("handle login: write json error: " ++ e)).httpError
              "internal server error" StatusInternalServerError
          | none => x4

/-- `ProtectMiddleware` of `api.go`: the handler it returns, run on a request.
Passing the request on to `next` is recorded as `Event.next`. -/
def ProtectMiddleware {σ : Type} (lib : Lib) (S : Storage σ) (now : Int)
    (next : Exec σ → Request → Exec σ) (x : Exec σ) (r : Request) : Exec σ :=
  -- get cookie
  match r.Cookie "accessToken" with
  | .error e =>
    (x.slog ("protect middleware: failed to get cookie: " ++ e)).httpError
      "not authorized" StatusUnauthorized
  | .ok cookieValue =>
    -- validate token
    match ValidateJWT lib now cookieValue with
    | .error e =>
      (x.slog ("protect middleware: failed to validate jwt: " ++ e)).httpError
        "not authorized" StatusUnauthorized
    | .ok token =>
      -- get claims
      match token.Claims with
      | .Other _ _ =>
        (x.slog "protect middleware: claims type assertion failed: %!w(<nil>)").httpError
          "not authorized" StatusUnauthorized
      | .MapClaims claims =>
        -- get userId of type STRING
        match claims.lookup "userId" with
        | some (.str userIdStr) =>
          -- conversion
          match Atoi userIdStr with
          | .error e =>
            (x.slog ("protect middleware: failed userId string to int conversion: "
              ++ e)).httpError "not authorized" StatusUnauthorized
          | .ok userId =>
            -- get user from store
            let found := S.GetUserById userId x.store
            let x1 := { x.emit (Event.GetUserById userId) with store := found.2 }
            match found.1 with
            | .error e =>
              (x1.slog ("protect middleware: failed to get user with id(" ++ Itoa userId
                ++ "): " ++ e)).httpError "not authorized" StatusUnauthorized
            | .ok user =>
              -- add user to r.context
              let r1 := r.WithValue ContextKeyUser user
              next (x1.emit (Event.next r1)) r1
        | _ =>
          (x.slog "protect middleware: failed to get userId from claims: %!w(<nil>)").httpError
            "not authorized" StatusUnauthorized

/-! ## `storage.go`: `CreateMessages` -/

/-- How a Go call ends: with a value, with an error, or in a run-time panic. -/
inductive GoResult (α : Type)
  | ok (v : α)
  | err (e : GoError)
  | panic (msg : String)
  deriving DecidableEq, Repr

/-- The `values` string `CreateMessages` builds, from the message at index `i`
on; `n` is `len(messages)`. -/
def CreateMessages.values (n : Nat) : Nat → List MessageJSON → String → String
  | _, [], values => values
  | i, msg :: rest, values =>
    let messageValues := "(" ++ Itoa msg.ChatId ++ ", " ++ msg.Text ++ ", " ++
      msg.AuthorName ++ ", " ++ Itoa msg.Timestamp ++ ")"
    if (i : Int) ≠ (n : Int) - 1 then
      CreateMessages.values n (i + 1) rest (values ++ messageValues ++ ", ")
    else
      CreateMessages.values n (i + 1) rest (values ++ messageValues)

/-- The loop `for rows.Next() { rows.Scan(&messages[msgIndex].Id); msgIndex += 1 }`
over the rows still to come; a row is the outcome of scanning it into an
`int`.  `messages[msgIndex]` outside the slice is a run-time panic. -/
def CreateMessages.scan : List (Except GoError Int) → Nat → List MessageJSON →
    GoResult (List MessageJSON)
  | [], _, messages => .ok messages
  | row :: rows, msgIndex, messages =>
    match messages[msgIndex]? with
    | none =>
      .panic ("runtime error: index out of range [" ++ Itoa msgIndex ++ "] with length "
        ++ Itoa messages.length)
    | some msg =>
      match row with
      | .error e => .err ("messages scan error: " ++ e)
      | .ok id =>
        CreateMessages.scan rows (msgIndex + 1) (messages.set msgIndex { msg with Id := id })

/-- `(*PostgresStore).CreateMessages` of `storage.go`; `query` is `s.db.Query`,
giving the rows of the result or an error. -/
def CreateMessages (query : String → List String → Except GoError (List (Except GoError Int)))
    (messages : List MessageJSON) : GoResult (List MessageJSON) :=
  let values := CreateMessages.values messages.length 0 messages ""
  match query "insert into messages(chatId, text, authorName, timestamp) values($1) returning id"
      [values] with
  | .error e => .err ("insert messages query error: " ++ e)
  | .ok rows => CreateMessages.scan rows 0 messages

/-! ## Specification-side definitions -/

/-- The condition under which the middleware lets a request through, in the
words of the specification: the request carries an `accessToken` cookie,
`ValidateJWT` accepts its value, the claims hold a string `userId` that parses
as a decimal integer, and `GetUserById` finds that user. -/
def Authorized {σ : Type} (lib : Lib) (S : Storage σ) (now : Int) (store : σ) (r : Request)
    (user : UserJSON) : Prop :=
  ∃ cookieValue token claims userIdStr userId,
    r.Cookie "accessToken" = .ok cookieValue ∧
    ValidateJWT lib now cookieValue = .ok token ∧
    token.Claims = Claims.MapClaims claims ∧
    claims.lookup "userId" = some (Any.str userIdStr) ∧
    Atoi userIdStr = .ok userId ∧
    (S.GetUserById userId store).1 = .ok user

/-- The message at position `i` once the ids yielded have been assigned in
order: the `i`-th id when there is one, the message as it was otherwise. -/
def withId (ids : List Int) (i : Nat) (msg : MessageJSON) : MessageJSON :=
  match ids[i]? with
  | some id => { msg with Id := id }
  | none => msg

/-! ## A small instance of the primitives, to run the definitions on -/

/-- A stand-in for base64url: byte `n` becomes the character `n + 256`. -/
def demoEncode (b : List Nat) : String := String.mk (b.map (fun n => Char.ofNat (n + 256)))

def demoDecode (s : String) : Except GoError (List Nat) :=
  if s.data.all (fun c => decide (256 ≤ c.toNat)) then .ok (s.data.map (fun c => c.toNat - 256))
  else .error "illegal base64 data"

/-- A stand-in for JSON objects with string fields: `k=v;k=v;`. -/
def demoMarshal (m : List (String × Any)) : Except GoError (List Nat) :=
  match m with
  | [] => .ok []
  | (k, .str v) :: rest =>
    match demoMarshal rest with
    | .error e => .error e
    | .ok b => .ok (StringBytes (k ++ "=" ++ v ++ ";") ++ b)
  | _ :: _ => .error "json: unsupported type"

def demoFields : List String → Except GoError (List (String × Any))
  | [] => .ok []
  | [""] => .ok []
  | f :: rest =>
    match Split f '=' with
    | [k, v] =>
      match demoFields rest with
      | .error e => .error e
      | .ok m => .ok ((k, Any.str v) :: m)
    | _ => .error "invalid character"

def demoUnmarshal (b : List Nat) : Except GoError (List (String × Any)) :=
  demoFields (Split (String.mk (b.map Char.ofNat)) ';')

/-- The request body `username:password`. -/
def demoDecodeUser (body : String) : Except GoError UserJSON :=
  match Split body ':' with
  | [username, pass] =>
    .ok { Id := 0, Username := username, PasswordHashed := pass, ChatIds := [] }
  | _ => .error "unexpected end of JSON input"

def demoLib : Lib :=
  { EncodeSegment := demoEncode
    DecodeSegment := demoDecode
    jsonMarshalMap := demoMarshal
    jsonUnmarshalMap := demoUnmarshal
    jsonDecodeMap := demoUnmarshal
    hashSum := fun _ b => b
    signOther := fun _ _ _ => .error "key is invalid"
    verifyOther := fun _ _ _ _ => some "key is invalid"
    jsonDecodeUser := demoDecodeUser
    jsonMarshalUser := fun u => .ok (Itoa u.Id ++ ":" ++ u.Username)
    GenerateFromPassword := fun pass _ =>
      if pass.length > 72 then .error "bcrypt: password length exceeds 72 bytes"
      else .ok ("$2a$10$" ++ pass)
    CompareHashAndPassword := fun hashed pass =>
      if hashed = "$2a$10$" ++ pass then none
      else some "crypto/bcrypt: hashedPassword is not the hash of the given password"
    cookieString := fun c => c.Name ++ "=" ++ c.Value }

/-- A store held in memory: the list of user records, ids counted from 1. -/
def memStore : Storage (List UserJSON) :=
  { CreateUser := fun user st =>
      (.ok { user with Id := st.length + 1 }, st ++ [{ user with Id := st.length + 1 }])
    GetUserById := fun id st =>
      match st.find? (fun u => decide (u.Id = id)) with
      | some u => (.ok u, st)
      | none => (.error "scan error: sql: no rows in result set", st)
    GetUserByUsername := fun username st =>
      match st.find? (fun u => decide (u.Username = username)) with
      | some u => (.ok u, st)
      | none => (.error "scan error: sql: no rows in result set", st) }

def alice : UserJSON :=
  { Id := 1, Username := "alice", PasswordHashed := "$2a$10$wonderland", ChatIds := [] }

/-- The token for user 1 as `CreateJWT` builds it, signed with `[]byte(secret)`. -/
def demoToken (secret : List Nat) : String :=
  match (NewWithClaims SigningMethodHS256 (CreateJWT.claims 1)).SignedString demoLib
      (Any.bytes secret) with
  | .ok tokenString => tokenString
  | .error _ => ""

/-- What `jwt.Parse` makes of `demoToken` signed with `[]byte(JwtSecret)`. -/
def demoParsed : Token :=
  { Raw := demoToken (StringBytes JwtSecret)
    Method := SigningMethodHS256
    Header := [("typ", Any.str "JWT"), ("alg", Any.str "HS256")]
    Claims := CreateJWT.claims 1
    Signature := demoEncode (hmacSum (fun b => b) 64 (StringBytes JwtSecret)
      (StringBytes (demoEncode (StringBytes "typ=JWT;alg=HS256;") ++ "." ++
        demoEncode (StringBytes "userId=1;"))))
    Valid := true }

def demoRequest (body : String) (cookies : List (String × String)) : Request :=
  { Body := body, Cookies := cookies, Context := [] }

/-- A password of 73 bytes. -/
def longPassword : String := String.mk (List.replicate 73 'x')

def demoMessages : List MessageJSON :=
  [{ Id := 0, ChatId := 1, Text := "hi", AuthorName := "alice", Timestamp := 10 },
   { Id := 0, ChatId := 1, Text := "ho", AuthorName := "bob", Timestamp := 30 },
   { Id := 0, ChatId := 1, Text := "hm", AuthorName := "alice", Timestamp := 20 }]

/-! ## Theorems -/

/-- `CreateJWT` never returns a token. -/
theorem CreateJWT_fails (lib : Lib) (userId : Int) : ∃ e, CreateJWT lib userId = .error e := by
  cases h : (NewWithClaims SigningMethodHS256 (CreateJWT.claims userId)).SigningString lib with
  | error e => exact ⟨e, by simp only [CreateJWT, Token.SignedString, h]⟩
  | ok sstr => exact ⟨ErrInvalidKeyType, by simp only [CreateJWT, Token.SignedString, h]; rfl⟩

/-- The response `http.Error` produces on a fresh writer. -/
theorem HttpError_fresh (msg : String) (code : Int) :
    HttpError ResponseWriter.fresh msg code =
      { header := [("Content-Type", "text/plain; charset=utf-8"), ("X-Content-Type-Options", "nosniff")]
        wroteHeader := true
        status := code
        sent := [("Content-Type", "text/plain; charset=utf-8"), ("X-Content-Type-Options", "nosniff")]
        body := msg ++ "\n" } := by
  simp [HttpError, ResponseWriter.fresh, ResponseWriter.WriteHeader, ResponseWriter.Write,
    Header.Set, Header.Del]

/-- Claim C1, on a register request whose username is already in the store and whose
password hashes: the handler answers with status 400 and goes on regardless, so
`CreateUser` is called with the request (its password hashed) and the store is the
one that call leaves behind. -/
theorem HandleRegister_duplicate_creates_user {σ : Type} (lib : Lib) (S : Storage σ) (now : Int)
    (store : σ) (r : Request) (req existing : UserJSON) (encPass : String)
    (hreq : lib.jsonDecodeUser r.Body = .ok req)
    (hdup : (S.GetUserByUsername req.Username store).1 = .ok existing)
    (hhash : lib.GenerateFromPassword req.PasswordHashed DefaultCost = .ok encPass) :
    (HandleRegister lib S now (Exec.start store) r).w.status = StatusBadRequest ∧
    Event.CreateUser { req with PasswordHashed := encPass }
      ∈ (HandleRegister lib S now (Exec.start store) r).trace ∧
    (HandleRegister lib S now (Exec.start store) r).store =
      (S.CreateUser { req with PasswordHashed := encPass }
        (S.GetUserByUsername req.Username store).2).2 := by
  simp only [HandleRegister, hreq, Exec.start, Exec.emit, Exec.slog, Exec.httpError, hdup, hhash,
    HttpError_fresh]
  cases hc : (S.CreateUser { req with PasswordHashed := encPass }
      (S.GetUserByUsername req.Username store).2).1 with
  | error e =>
    simp [HttpError, ResponseWriter.WriteHeader, ResponseWriter.Write]
  | ok user =>
    obtain ⟨e, he⟩ := CreateJWT_fails lib user.Id
    simp [he, HttpError, ResponseWriter.WriteHeader, ResponseWriter.Write]

/-- Claim C8, on a register request whose username is already in the store and whose
password fails to hash: the response that goes out has status 400, not 500, its body
is the "taken" message followed by the internal-error message, and the only store
call is the lookup. -/
theorem HandleRegister_hash_failure_after_duplicate {σ : Type} (lib : Lib) (S : Storage σ)
    (now : Int) (store : σ) (r : Request) (req existing : UserJSON) (e : GoError)
    (hreq : lib.jsonDecodeUser r.Body = .ok req)
    (hdup : (S.GetUserByUsername req.Username store).1 = .ok existing)
    (hhash : lib.GenerateFromPassword req.PasswordHashed DefaultCost = .error e) :
    (HandleRegister lib S now (Exec.start store) r).w.status = StatusBadRequest ∧
    (HandleRegister lib S now (Exec.start store) r).w.status ≠ StatusInternalServerError ∧
    (HandleRegister lib S now (Exec.start store) r).w.body =
      "username " ++ req.Username ++ " is taken" ++ "\n" ++ ("internal server error" ++ "\n") ∧
    (HandleRegister lib S now (Exec.start store) r).trace
      = [Event.GetUserByUsername req.Username] := by
  simp only [HandleRegister, hreq, Exec.start, Exec.emit, Exec.slog, Exec.httpError, hdup, hhash,
    HttpError_fresh]
  simp [HttpError, ResponseWriter.WriteHeader, ResponseWriter.Write, StatusBadRequest,
    StatusInternalServerError]

/-- Every `CreateUser` call of `HandleRegister` carries the request with its password
replaced by the output of a successful hash. -/
theorem HandleRegister_store_receives_hash {σ : Type} (lib : Lib) (S : Storage σ) (now : Int)
    (store : σ) (r : Request) (u : UserJSON)
    (h : Event.CreateUser u ∈ (HandleRegister lib S now (Exec.start store) r).trace) :
    ∃ req encPass, lib.jsonDecodeUser r.Body = .ok req ∧
      lib.GenerateFromPassword req.PasswordHashed DefaultCost = .ok encPass ∧
      u = { req with PasswordHashed := encPass } := by
  cases hreq : lib.jsonDecodeUser r.Body with
  | error e =>
    simp [HandleRegister, hreq, Exec.start, Exec.emit, Exec.slog, Exec.httpError] at h
  | ok req =>
    cases hhash : lib.GenerateFromPassword req.PasswordHashed DefaultCost with
    | error e =>
      simp only [HandleRegister, hreq, Exec.start, Exec.emit, Exec.slog, Exec.httpError,
        hhash] at h
      cases hf : (S.GetUserByUsername req.Username store).1 <;> simp [hf] at h
    | ok encPass =>
      refine ⟨req, encPass, rfl, hhash, ?_⟩
      simp only [HandleRegister, hreq, Exec.start, Exec.emit, Exec.slog, Exec.httpError,
        hhash] at h
      cases hf : (S.GetUserByUsername req.Username store).1 with
      | error e1 =>
        simp only [hf] at h
        cases hc : (S.CreateUser { req with PasswordHashed := encPass }
            (S.GetUserByUsername req.Username store).2).1 with
        | error e2 => simpa [hc] using h
        | ok user =>
          obtain ⟨e3, he⟩ := CreateJWT_fails lib user.Id
          simpa [hc, he] using h
      | ok existing =>
        simp only [hf] at h
        cases hc : (S.CreateUser { req with PasswordHashed := encPass }
            (S.GetUserByUsername req.Username store).2).1 with
        | error e2 => simpa [hc] using h
        | ok user =>
          obtain ⟨e3, he⟩ := CreateJWT_fails lib user.Id
          simpa [hc, he] using h

/-- When the username is free and hashing fails, the answer is 500 and `CreateUser`
is not called. -/
theorem HandleRegister_hash_failure_new_username {σ : Type} (lib : Lib) (S : Storage σ)
    (now : Int) (store : σ) (r : Request) (req : UserJSON) (e1 e : GoError)
    (hreq : lib.jsonDecodeUser r.Body = .ok req)
    (hnew : (S.GetUserByUsername req.Username store).1 = .error e1)
    (hhash : lib.GenerateFromPassword req.PasswordHashed DefaultCost = .error e) :
    (HandleRegister lib S now (Exec.start store) r).w.status = StatusInternalServerError ∧
    (HandleRegister lib S now (Exec.start store) r).w.body = "internal server error" ++ "\n" ∧
    (HandleRegister lib S now (Exec.start store) r).trace
      = [Event.GetUserByUsername req.Username] := by
  simp only [HandleRegister, hreq, Exec.start, Exec.emit, Exec.slog, Exec.httpError, hnew, hhash,
    HttpError_fresh]
  simp

/-- Claim C4: a login request whose username the store does not find is answered with
status 404, and one whose password does not validate against the stored hash with
status 400 and "wrong password"; either way the only event is the lookup (no store
write, no call of `CreateJWT`), no `Set-Cookie` header is set, and the store is as the
lookup left it. -/
theorem HandleLogin_rejections {σ : Type} (lib : Lib) (S : Storage σ) (now : Int) (store : σ)
    (r : Request) (req : UserJSON) (hreq : lib.jsonDecodeUser r.Body = .ok req) :
    (∀ e, (S.GetUserByUsername req.Username store).1 = .error e →
      (HandleLogin lib S now (Exec.start store) r).w.status = StatusNotFound ∧
      (HandleLogin lib S now (Exec.start store) r).w.body
        = "user " ++ req.Username ++ " not found" ++ "\n" ∧
      (HandleLogin lib S now (Exec.start store) r).trace = [Event.GetUserByUsername req.Username] ∧
      (∀ ev ∈ (HandleLogin lib S now (Exec.start store) r).trace,
        ev.writesStore = false ∧ ev.isCreateJWT = false) ∧
      Header.Values (HandleLogin lib S now (Exec.start store) r).w.sent "Set-Cookie" = [] ∧
      Header.Values (HandleLogin lib S now (Exec.start store) r).w.header "Set-Cookie" = [] ∧
      (HandleLogin lib S now (Exec.start store) r).store
        = (S.GetUserByUsername req.Username store).2) ∧
    (∀ user, (S.GetUserByUsername req.Username store).1 = .ok user →
      user.ValidatePassword lib req.PasswordHashed = false →
      (HandleLogin lib S now (Exec.start store) r).w.status = StatusBadRequest ∧
      (HandleLogin lib S now (Exec.start store) r).w.body = "wrong password" ++ "\n" ∧
      (HandleLogin lib S now (Exec.start store) r).trace = [Event.GetUserByUsername req.Username] ∧
      (∀ ev ∈ (HandleLogin lib S now (Exec.start store) r).trace,
        ev.writesStore = false ∧ ev.isCreateJWT = false) ∧
      Header.Values (HandleLogin lib S now (Exec.start store) r).w.sent "Set-Cookie" = [] ∧
      Header.Values (HandleLogin lib S now (Exec.start store) r).w.header "Set-Cookie" = [] ∧
      (HandleLogin lib S now (Exec.start store) r).store
        = (S.GetUserByUsername req.Username store).2) := by
  constructor
  · intro e he
    simp only [HandleLogin, hreq, Exec.start, Exec.emit, Exec.slog, Exec.httpError, he,
      HttpError_fresh]
    simp [Header.Values, Event.writesStore, Event.isCreateJWT]
  · intro user hu hpw
    simp only [HandleLogin, hreq, Exec.start, Exec.emit, Exec.slog, Exec.httpError, hu, hpw,
      HttpError_fresh]
    simp [Header.Values, Event.writesStore, Event.isCreateJWT]

/-- Claim C7: `CreateCookie` keeps name and value and sets path "/", the fixed domain,
`Secure`, `HttpOnly`, the default same-site mode and `Expires` 30 days after now;
`MaxAge`, counted in seconds, is `CookieLifeTime` in nanoseconds, 2592000000000000,
and not 2592000. -/
theorem CreateCookie_attributes (now : Int) (name value : String) :
    (CreateCookie now name value).Name = name ∧
    (CreateCookie now name value).Value = value ∧
    (CreateCookie now name value).Path = "/" ∧
    (CreateCookie now name value).Domain = "localhost" ∧
    (CreateCookie now name value).Secure = true ∧
    (CreateCookie now name value).HttpOnly = true ∧
    (CreateCookie now name value).SameSite = SameSite.SameSiteDefaultMode ∧
    (CreateCookie now name value).Expires = now + 30 * 24 * 3600 * 1000000000 ∧
    (CreateCookie now name value).MaxAge = 2592000000000000 ∧
    (CreateCookie now name value).MaxAge ≠ 2592000 := by
  have hLife : CookieLifeTime = 2592000000000000 := by decide
  have hMax : goInt CookieLifeTime = 2592000000000000 := by decide
  refine ⟨rfl, rfl, rfl, rfl, rfl, rfl, rfl, ?_, ?_, ?_⟩
  · show now + CookieLifeTime = _
    rw [hLife]; norm_num
  · exact hMax
  · show goInt CookieLifeTime ≠ 2592000
    rw [hMax]; decide

/-- Claim C10: the header `WriteJSON` sends is the one the writer had before the call,
since it adds `Content-Type` after `WriteHeader`; on a fresh writer the response has
the status asked for and the encoding (and a newline) as body, but no `Content-Type`
among the headers sent. -/
theorem WriteJSON_content_type_after_header {α : Type} (marshal : α → Except GoError String)
    (w : ResponseWriter) (v : α) (status : Int) :
    (WriteJSON marshal w v status).1.sent = (if w.wroteHeader then w.sent else w.header) ∧
    Header.Values (WriteJSON marshal ResponseWriter.fresh v status).1.sent "Content-Type" = [] ∧
    (WriteJSON marshal ResponseWriter.fresh v status).1.status = status ∧
    Header.Values (WriteJSON marshal ResponseWriter.fresh v status).1.header "Content-Type"
      = ["application/json"] ∧
    (∀ s, marshal v = .ok s →
      (WriteJSON marshal ResponseWriter.fresh v status).1.body = s ++ "\n") := by
  refine ⟨?_, ?_, ?_, ?_, ?_⟩
  · unfold WriteJSON
    cases hm : marshal v <;> cases hw : w.wroteHeader <;>
      simp [ResponseWriter.WriteHeader, ResponseWriter.Write, hw]
  · unfold WriteJSON
    cases hm : marshal v <;>
      simp [ResponseWriter.WriteHeader, ResponseWriter.Write, ResponseWriter.fresh, Header.Values]
  · unfold WriteJSON
    cases hm : marshal v <;>
      simp [ResponseWriter.WriteHeader, ResponseWriter.Write, ResponseWriter.fresh]
  · unfold WriteJSON
    cases hm : marshal v <;>
      simp [ResponseWriter.WriteHeader, ResponseWriter.Write, ResponseWriter.fresh,
        Header.Values, Header.Add]
  · intro s hs
    unfold WriteJSON
    simp [hs, ResponseWriter.WriteHeader, ResponseWriter.Write, ResponseWriter.fresh]

/-- Claim C2: for every user id `CreateJWT` returns an error and no token; once the
token's signing string is built the error is `ErrInvalidKeyType`, the key being a
`string` where the HMAC method takes `[]byte`. -/
theorem CreateJWT_returns_error (lib : Lib) (userId : Int) :
    (∃ e, CreateJWT lib userId = .error e) ∧
    (∀ sstr, (NewWithClaims SigningMethodHS256 (CreateJWT.claims userId)).SigningString lib
        = .ok sstr → CreateJWT lib userId = .error ErrInvalidKeyType) := by
  have key : ∀ sstr, (NewWithClaims SigningMethodHS256 (CreateJWT.claims userId)).SigningString lib
        = .ok sstr → CreateJWT lib userId = .error ErrInvalidKeyType := by
    intro sstr h
    simp only [CreateJWT, Token.SignedString, h]
    rfl
  refine ⟨?_, key⟩
  cases h : (NewWithClaims SigningMethodHS256 (CreateJWT.claims userId)).SigningString lib with
  | error e => exact ⟨e, by simp only [CreateJWT, Token.SignedString, h]⟩
  | ok sstr => exact ⟨ErrInvalidKeyType, key sstr h⟩

/-- No ids: the message as it was. -/
theorem withId_nil (i : Nat) (msg : MessageJSON) : withId [] i msg = msg := by
  simp [withId]

/-- The first message gets the first id. -/
theorem withId_cons_zero (id : Int) (ids : List Int) (msg : MessageJSON) :
    withId (id :: ids) 0 msg = { msg with Id := id } := by
  simp [withId]

/-- Later messages get the later ids. -/
theorem withId_cons_succ (id : Int) (ids : List Int) (i : Nat) (msg : MessageJSON) :
    withId (id :: ids) (i + 1) msg = withId ids i msg := by
  simp [withId]

/-- The scan loop from index `k` on, with no more ids than messages left. -/
theorem scan_ok (ids : List Int) :
    ∀ (k : Nat) (messages : List MessageJSON), k + ids.length ≤ messages.length →
      ∃ out, CreateMessages.scan (ids.map Except.ok) k messages = .ok out ∧
        out.length = messages.length ∧
        ∀ i, out[i]? = (messages[i]?).map (fun m => if k ≤ i then withId ids (i - k) m else m) := by
  induction ids with
  | nil =>
    intro k messages _
    refine ⟨messages, rfl, rfl, ?_⟩
    intro i
    cases messages[i]? <;> simp [withId_nil]
  | cons id ids ih =>
    intro k messages hk
    have hlt : k < messages.length := by
      simp only [List.length_cons] at hk; omega
    have hget : messages[k]? = some messages[k] := List.getElem?_eq_getElem hlt
    obtain ⟨out, hout, hlen, hpt⟩ :=
      ih (k + 1) (messages.set k { messages[k] with Id := id }) (by
        simp only [List.length_cons] at hk
        simp only [List.length_set]; omega)
    refine ⟨out, ?_, ?_, ?_⟩
    · simp only [List.map_cons, CreateMessages.scan, hget]
      exact hout
    · simpa using hlen
    · intro i
      rw [hpt i]
      by_cases hik : i = k
      · subst hik
        simp [List.getElem?_set_self hlt, hget, withId_cons_zero]
      · rw [List.getElem?_set_ne (Ne.symm hik)]
        cases hm : messages[i]? with
        | none => rfl
        | some m =>
          simp only [Option.map_some']
          by_cases hle : k ≤ i
          · have h1 : k + 1 ≤ i := by omega
            have h2 : i - k = (i - (k + 1)) + 1 := by omega
            simp only [hle, h1, if_true]
            rw [h2, withId_cons_succ]
          · have h1 : ¬ (k + 1 ≤ i) := by omega
            simp [hle, h1]

/-- Claim C9, amended: when the insert query succeeds and yields ids, no more of them
than there are messages, `CreateMessages` returns (without a panic) the messages in
their order, the `i`-th with the `i`-th id where there is one and its own id
otherwise, every other field unchanged. -/
theorem CreateMessages_assigns_ids
    (query : String → List String → Except GoError (List (Except GoError Int)))
    (messages : List MessageJSON) (ids : List Int)
    (hquery : query "insert into messages(chatId, text, authorName, timestamp) values($1) returning id"
      [CreateMessages.values messages.length 0 messages ""] = .ok (ids.map Except.ok))
    (hlen : ids.length ≤ messages.length) :
    ∃ out, CreateMessages query messages = .ok out ∧
      out.length = messages.length ∧
      (∀ i, out[i]? = (messages[i]?).map (withId ids i)) ∧
      (∀ i (h : i < out.length) (h1 : i < messages.length),
        out[i].ChatId = messages[i].ChatId ∧ out[i].Text = messages[i].Text ∧
        out[i].AuthorName = messages[i].AuthorName ∧ out[i].Timestamp = messages[i].Timestamp ∧
        (∀ h2 : i < ids.length, out[i].Id = ids[i]) ∧
        (ids.length ≤ i → out[i].Id = messages[i].Id)) := by
  obtain ⟨out, hout, hl, hpt⟩ := scan_ok ids 0 messages (by omega)
  have hpt1 : ∀ i, out[i]? = (messages[i]?).map (withId ids i) := by
    intro i
    rw [hpt i]
    simp
  refine ⟨out, ?_, hl, hpt1, ?_⟩
  · simp only [CreateMessages, hquery]
    exact hout
  · intro i h h1
    have h3 := hpt1 i
    rw [List.getElem?_eq_getElem h, List.getElem?_eq_getElem h1] at h3
    simp only [Option.map_some', Option.some.injEq] at h3
    rw [h3]
    refine ⟨?_, ?_, ?_, ?_, ?_, ?_⟩
    · unfold withId; cases ids[i]? <;> rfl
    · unfold withId; cases ids[i]? <;> rfl
    · unfold withId; cases ids[i]? <;> rfl
    · unfold withId; cases ids[i]? <;> rfl
    · intro h2
      simp [withId, List.getElem?_eq_getElem h2]
    · intro h2
      simp [withId, List.getElem?_eq_none h2]

/-- Claim C9 fails as stated: with a query that yields more ids than there are
messages, `CreateMessages` indexes outside the list and panics. -/
theorem CreateMessages_index_out_of_range :
    CreateMessages (fun _ _ => .ok [.ok 7]) []
      = .panic "runtime error: index out of range [0] with length 0" ∧
    CreateMessages (fun _ _ => .ok [.ok 7, .ok 8])
        [{ Id := 0, ChatId := 1, Text := "hi", AuthorName := "alice", Timestamp := 10 }]
      = .panic "runtime error: index out of range [1] with length 1" := by
  decide

/-- A trailing zero byte on the key `JwtSecret` does not change the HMAC. -/
theorem hmacSum_zero_padded (sum : List Nat → List Nat) (h : HashAlg) (msg : List Nat) :
    hmacSum sum h.BlockSize (StringBytes JwtSecret ++ [0]) msg
      = hmacSum sum h.BlockSize (StringBytes JwtSecret) msg := by
  have hb : StringBytes JwtSecret = [97, 98, 99, 49, 50, 51] := by decide
  cases h <;> simp only [hmacSum, hb, HashAlg.BlockSize] <;> rfl

/-- What a successful `ParseUnverified` tells about the token string. -/
theorem ParseUnverified_ok (lib : Lib) (tokenString : String) (tok : Token) (p0 p1 p2 : String)
    (h : ParseUnverified lib tokenString = .ok (tok, p0, p1, p2)) :
    Split tokenString '.' = [p0, p1, p2] ∧
    (∃ alg, tok.Header.lookup "alg" = some (Any.str alg) ∧
      GetSigningMethod alg = some tok.Method) ∧
    (∃ claims, tok.Claims = Claims.MapClaims claims) := by
  unfold ParseUnverified at h
  split at h
  · rename_i q0 q1 q2 hs
    cases hd0 : lib.DecodeSegment q0 with
    | error e =>
      simp only [hd0] at h
      split at h <;> simp at h
    | ok headerBytes =>
      cases hj0 : lib.jsonUnmarshalMap headerBytes with
      | error e => simp [hd0, hj0] at h
      | ok header =>
        cases hd1 : lib.DecodeSegment q1 with
        | error e => simp [hd0, hj0, hd1] at h
        | ok claimBytes =>
          cases hj1 : lib.jsonDecodeMap claimBytes with
          | error e => simp [hd0, hj0, hd1, hj1] at h
          | ok claims =>
            simp only [hd0, hj0, hd1, hj1] at h
            split at h
            · rename_i alg halg
              cases hg : GetSigningMethod alg with
              | none => simp [hg] at h
              | some method =>
                simp only [hg, Except.ok.injEq, Prod.mk.injEq] at h
                obtain ⟨ht, h0, h1, h2⟩ := h
                subst ht h0 h1 h2
                exact ⟨hs, ⟨alg, halg, hg⟩, ⟨claims, rfl⟩⟩
            · simp at h
  · simp at h

/-- The key function on a token with an HMAC method. -/
theorem ValidateJWT_keyFunc_HMAC (tok : Token) (name : String) (hash : HashAlg)
    (hm : tok.Method = SigningMethod.HMAC name hash) :
    ValidateJWT.keyFunc tok = .ok (Any.bytes (StringBytes JwtSecret)) := by
  simp only [ValidateJWT.keyFunc, hm]

/-- The key function on a token with any other method. -/
theorem ValidateJWT_keyFunc_Other (tok : Token) (name : String)
    (hm : tok.Method = SigningMethod.Other name) :
    ∃ e, ValidateJWT.keyFunc tok = .error e := by
  simp only [ValidateJWT.keyFunc, hm]
  exact ⟨_, rfl⟩

/-- When `ValidateJWT` accepts, step by step. -/
theorem ValidateJWT_ok_iff (lib : Lib) (now : Int) (tokenString : String) (token : Token) :
    ValidateJWT lib now tokenString = .ok token ↔
      ∃ tok p0 p1 p2, ParseUnverified lib tokenString = .ok (tok, p0, p1, p2) ∧
        (∃ name hash, tok.Method = SigningMethod.HMAC name hash) ∧
        tok.Method.Verify lib (p0 ++ "." ++ p1) p2 (Any.bytes (StringBytes JwtSecret)) = none ∧
        tok.Claims.Valid now = none ∧
        token = { tok with Signature := p2, Valid := true } := by
  constructor
  · intro h
    unfold ValidateJWT Parse at h
    cases hpu : ParseUnverified lib tokenString with
    | error e => simp [hpu] at h
    | ok res =>
      obtain ⟨tok, p0, p1, p2⟩ := res
      simp only [hpu] at h
      cases hm : tok.Method with
      | Other name =>
        obtain ⟨e, he⟩ := ValidateJWT_keyFunc_Other tok name hm
        simp [he] at h
      | HMAC name hash =>
        rw [ValidateJWT_keyFunc_HMAC tok name hash hm] at h
        simp only at h
        cases hv : tok.Method.Verify lib (p0 ++ "." ++ p1) p2
            (Any.bytes (StringBytes JwtSecret)) with
        | some e => simp [hv] at h
        | none =>
          cases hc : tok.Claims.Valid now with
          | some e => simp [hv, hc] at h
          | none =>
            simp only [hv, hc, Except.ok.injEq] at h
            exact ⟨tok, p0, p1, p2, rfl, ⟨name, hash, hm⟩, hv, hc, h.symm⟩
  · rintro ⟨tok, p0, p1, p2, hpu, ⟨name, hash, hm⟩, hv, hc, rfl⟩
    unfold ValidateJWT Parse
    simp only [hpu, ValidateJWT_keyFunc_HMAC tok name hash hm, hv, hc]

/-- A signature the HMAC method verifies decodes to the HMAC under the key. -/
theorem Verify_HMAC_none (lib : Lib) (name : String) (hash : HashAlg) (sstr sig : String)
    (key : List Nat)
    (h : SigningMethod.Verify lib (SigningMethod.HMAC name hash) sstr sig (Any.bytes key) = none) :
    lib.DecodeSegment sig = .ok (hmacSum (lib.hashSum hash) hash.BlockSize key (StringBytes sstr)) := by
  simp only [SigningMethod.Verify] at h
  cases hd : lib.DecodeSegment sig with
  | error e => simp [hd] at h
  | ok b =>
    simp only [hd] at h
    split at h
    · rename_i heq; rw [heq]
    · simp at h

/-- Claim C5, amended: the key function of `ValidateJWT` returns an error exactly when
the token's method is not of the HMAC family and otherwise the bytes of `JwtSecret`;
a token `ValidateJWT` accepts has three segments, a header whose `alg` names an HMAC
method, and a signature segment that decodes to the HMAC of the first two segments
under the bytes of `JwtSecret`. -/
theorem ValidateJWT_key_and_signature (lib : Lib) (now : Int) :
    (∀ token : Token, (∃ e, ValidateJWT.keyFunc token = .error e) ↔
      ¬ ∃ name hash, token.Method = SigningMethod.HMAC name hash) ∧
    (∀ (token : Token) (key : Any), ValidateJWT.keyFunc token = .ok key →
      key = Any.bytes (StringBytes JwtSecret)) ∧
    (∀ (tokenString : String) (token : Token), ValidateJWT lib now tokenString = .ok token →
      ∃ p0 p1 p2 alg name hash, Split tokenString '.' = [p0, p1, p2] ∧
        token.Header.lookup "alg" = some (Any.str alg) ∧
        GetSigningMethod alg = some (SigningMethod.HMAC name hash) ∧
        token.Method = SigningMethod.HMAC name hash ∧
        lib.DecodeSegment p2 = .ok (hmacSum (lib.hashSum hash) hash.BlockSize
          (StringBytes JwtSecret) (StringBytes (p0 ++ "." ++ p1)))) := by
  refine ⟨?_, ?_, ?_⟩
  · intro token
    cases hm : token.Method with
    | HMAC name hash =>
      rw [ValidateJWT_keyFunc_HMAC token name hash hm]
      simp
    | Other name =>
      obtain ⟨e, he⟩ := ValidateJWT_keyFunc_Other token name hm
      simp [he]
  · intro token key hk
    cases hm : token.Method with
    | HMAC name hash =>
      rw [ValidateJWT_keyFunc_HMAC token name hash hm] at hk
      simp only [Except.ok.injEq] at hk
      exact hk.symm
    | Other name =>
      obtain ⟨e, he⟩ := ValidateJWT_keyFunc_Other token name hm
      rw [he] at hk
      simp at hk
  · intro tokenString token h
    obtain ⟨tok, p0, p1, p2, hpu, ⟨name, hash, hm⟩, hv, _, rfl⟩ :=
      (ValidateJWT_ok_iff lib now tokenString token).mp h
    obtain ⟨hs, ⟨alg, halg, hg⟩, _⟩ := ParseUnverified_ok lib tokenString tok p0 p1 p2 hpu
    rw [hm] at hv hg
    exact ⟨p0, p1, p2, alg, name, hash, hs, halg, hg, hm,
      Verify_HMAC_none lib name hash _ _ _ hv⟩

/-- The demo token signed with `[]byte(JwtSecret)` is accepted. -/
theorem ValidateJWT_demoToken :
    ValidateJWT demoLib 0 (demoToken (StringBytes JwtSecret)) = .ok demoParsed := by
  decide

/-- Signing with `JwtSecret` followed by a zero byte is signing with `JwtSecret`. -/
theorem SignedString_zero_padded (lib : Lib) (name : String) (hash : HashAlg) (claims : Claims) :
    (NewWithClaims (SigningMethod.HMAC name hash) claims).SignedString lib
        (Any.bytes (StringBytes JwtSecret ++ [0]))
      = (NewWithClaims (SigningMethod.HMAC name hash) claims).SignedString lib
        (Any.bytes (StringBytes JwtSecret)) := by
  simp only [Token.SignedString, NewWithClaims, SigningMethod.Sign, hmacSum_zero_padded]

/-- The demo token signed with the zero-padded secret is the demo token. -/
theorem demoToken_zero_padded :
    demoToken (StringBytes JwtSecret ++ [0]) = demoToken (StringBytes JwtSecret) := by
  unfold demoToken
  rw [show SigningMethodHS256 = SigningMethod.HMAC "HS256" HashAlg.SHA256 from rfl,
    SignedString_zero_padded]

/-- The demo token is what `SignedString` returns in the demo instance. -/
theorem SignedString_demoToken :
    (NewWithClaims SigningMethodHS256 (CreateJWT.claims 1)).SignedString demoLib
      (Any.bytes (StringBytes JwtSecret)) = .ok (demoToken (StringBytes JwtSecret)) := by
  decide

/-- Claim C5 fails as stated: the secret `JwtSecret` followed by a zero byte is another
secret, yet with every hash function it signs exactly as `JwtSecret` does (HMAC pads
the key with zeros), and the token it signs for user 1 is accepted by `ValidateJWT`. -/
theorem ValidateJWT_accepts_zero_padded_secret :
    ∃ secret : List Nat, secret ≠ StringBytes JwtSecret ∧
      (∀ (lib : Lib) (name : String) (hash : HashAlg) (sstr : String),
        SigningMethod.Sign lib (SigningMethod.HMAC name hash) sstr (Any.bytes secret)
          = SigningMethod.Sign lib (SigningMethod.HMAC name hash) sstr
              (Any.bytes (StringBytes JwtSecret))) ∧
      (NewWithClaims SigningMethodHS256 (CreateJWT.claims 1)).SignedString demoLib
        (Any.bytes secret) = .ok (demoToken secret) ∧
      ∃ token, ValidateJWT demoLib 0 (demoToken secret) = .ok token := by
  refine ⟨StringBytes JwtSecret ++ [0], by decide, ?_, ?_, ?_⟩
  · intro lib name hash sstr
    simp only [SigningMethod.Sign, hmacSum_zero_padded]
  · rw [demoToken_zero_padded,
      show SigningMethodHS256 = SigningMethod.HMAC "HS256" HashAlg.SHA256 from rfl,
      SignedString_zero_padded]
    exact SignedString_demoToken
  · rw [demoToken_zero_padded]
    exact ⟨demoParsed, ValidateJWT_demoToken⟩

/-- Only the claims make the verdict of `ValidateJWT` depend on the time. -/
theorem ValidateJWT_at_other_time (lib : Lib) (now later : Int) (tokenString : String)
    (token : Token) (hvalid : ValidateJWT lib now tokenString = .ok token)
    (hv : token.Claims.Valid later = none) :
    ValidateJWT lib later tokenString = .ok token := by
  obtain ⟨tok, p0, p1, p2, hpu, hm, hver, _, rfl⟩ :=
    (ValidateJWT_ok_iff lib now tokenString token).mp hvalid
  exact (ValidateJWT_ok_iff lib later tokenString _).mpr ⟨tok, p0, p1, p2, hpu, hm, hver, hv, rfl⟩

/-- The claims `CreateJWT` builds are valid at every time. -/
theorem CreateJWT_claims_valid (userId : Int) (now : Int) :
    (CreateJWT.claims userId).Valid now = none := by
  simp [CreateJWT.claims, Claims.Valid, MapClaimsValid, VerifyExpiresAt, VerifyIssuedAt,
    VerifyNotBefore, List.lookup]

/-- Claim C6, amended: the claims `CreateJWT` builds are the single field `userId`, with
no `exp`; they are valid at every time, so a token carrying them that `ValidateJWT`
accepts at one time is accepted at any other; the 30-day window is that of the
cookie, whose `Expires` is the time of issue plus `CookieLifeTime`. -/
theorem CreateJWT_claims_carry_no_expiry (lib : Lib) (userId : Int) (now later : Int)
    (tokenString : String) (token : Token)
    (hvalid : ValidateJWT lib now tokenString = .ok token)
    (hclaims : token.Claims = CreateJWT.claims userId) :
    (CreateJWT.claims userId).fields = [("userId", Any.str (Itoa userId))] ∧
    (CreateJWT.claims userId).fields.lookup "exp" = none ∧
    (CreateJWT.claims userId).Valid later = none ∧
    ValidateJWT lib later tokenString = .ok token ∧
    (∀ issued name value, (CreateCookie issued name value).Expires = issued + CookieLifeTime) := by
  refine ⟨rfl, ?_, CreateJWT_claims_valid userId later, ?_, fun _ _ _ => rfl⟩
  · simp [CreateJWT.claims, Claims.fields, List.lookup]
  · exact ValidateJWT_at_other_time lib now later tokenString token hvalid
      (by rw [hclaims]; exact CreateJWT_claims_valid userId later)

/-- The demo token accepted at time 0 is accepted a trillion seconds later. -/
theorem CreateJWT_claims_carry_no_expiry_witness :
    ValidateJWT demoLib 0 (demoToken (StringBytes JwtSecret)) = .ok demoParsed ∧
    demoParsed.Claims = CreateJWT.claims 1 ∧
    ValidateJWT demoLib 1000000000000 (demoToken (StringBytes JwtSecret)) = .ok demoParsed :=
  ⟨ValidateJWT_demoToken, rfl,
    (CreateJWT_claims_carry_no_expiry demoLib 1 0 1000000000000 _ _
      ValidateJWT_demoToken rfl).2.2.2.1⟩

/-- Claim C6 fails as stated: the claims `CreateJWT` builds for user 1 hold no `exp`, are
valid one second after the 30 days, and a token carrying them is accepted by
`ValidateJWT` at that time. -/
theorem CreateJWT_token_never_expires :
    (CreateJWT.claims 1).fields = [("userId", Any.str "1")] ∧
    (CreateJWT.claims 1).fields.lookup "exp" = none ∧
    (CreateJWT.claims 1).Valid (0 + 30 * 24 * 3600 + 1) = none ∧
    demoParsed.Claims = CreateJWT.claims 1 ∧
    ValidateJWT demoLib (0 + 30 * 24 * 3600 + 1) (demoToken (StringBytes JwtSecret))
      = .ok demoParsed := by
  refine ⟨by decide, by decide, CreateJWT_claims_valid 1 _, rfl, ?_⟩
  exact ValidateJWT_at_other_time demoLib 0 _ _ _ ValidateJWT_demoToken
    (CreateJWT_claims_valid 1 _)

/-- The user an authorized request resolves to is unique. -/
theorem Authorized_unique {σ : Type} (lib : Lib) (S : Storage σ) (now : Int) (store : σ)
    (r : Request) (u v : UserJSON) (hu : Authorized lib S now store r u)
    (hv : Authorized lib S now store r v) : u = v := by
  obtain ⟨c, tok, cl, s, id, h1, h2, h3, h4, h5, h6⟩ := hu
  obtain ⟨c', tok', cl', s', id', k1, k2, k3, k4, k5, k6⟩ := hv
  rw [h1] at k1; cases k1
  rw [h2] at k2; cases k2
  rw [h3] at k3; cases k3
  rw [h4] at k4; cases k4
  rw [h5] at k5; cases k5
  rw [h6] at k6; cases k6
  rfl

/-- What the middleware does with a request that is let through. -/
theorem ProtectMiddleware_pass {σ : Type} (lib : Lib) (S : Storage σ) (now : Int)
    (next : Exec σ → Request → Exec σ) (store : σ) (r : Request) (user : UserJSON)
    (h : Authorized lib S now store r user) :
    ∃ userId, ProtectMiddleware lib S now next (Exec.start store) r =
      next { store := (S.GetUserById userId store).2
             w := ResponseWriter.fresh
             logs := []
             trace := [Event.GetUserById userId, Event.next (r.WithValue ContextKeyUser user)] }
        (r.WithValue ContextKeyUser user) := by
  obtain ⟨c, tok, cl, s, id, h1, h2, h3, h4, h5, h6⟩ := h
  refine ⟨id, ?_⟩
  simp only [ProtectMiddleware, h1, h2, h3, h4, h5, Exec.start, Exec.emit, h6]
  rfl

/-- What the middleware does with a request that is turned away. -/
theorem ProtectMiddleware_reject {σ : Type} (lib : Lib) (S : Storage σ) (now : Int)
    (store : σ) (r : Request) (h : ¬ ∃ user, Authorized lib S now store r user) :
    ∃ store1 msg tr, (∀ ev ∈ tr, ev.isNext = false) ∧
      ∀ next : Exec σ → Request → Exec σ,
        ProtectMiddleware lib S now next (Exec.start store) r =
          { store := store1
            w := HttpError ResponseWriter.fresh "not authorized" StatusUnauthorized
            logs := [msg]
            trace := tr } := by
  cases h1 : r.Cookie "accessToken" with
  | error e =>
    exact ⟨store, _, [], by simp, fun next => by
      simp only [ProtectMiddleware, h1, Exec.start, Exec.slog, Exec.httpError]; rfl⟩
  | ok c =>
    cases h2 : ValidateJWT lib now c with
    | error e =>
      exact ⟨store, _, [], by simp, fun next => by
        simp only [ProtectMiddleware, h1, h2, Exec.start, Exec.slog, Exec.httpError]; rfl⟩
    | ok tok =>
      cases h3 : tok.Claims with
      | Other f v =>
        exact ⟨store, _, [], by simp, fun next => by
          simp only [ProtectMiddleware, h1, h2, h3, Exec.start, Exec.slog, Exec.httpError]; rfl⟩
      | MapClaims cl =>
        cases h4 : cl.lookup "userId" with
        | none =>
          exact ⟨store, _, [], by simp, fun next => by
            simp only [ProtectMiddleware, h1, h2, h3, h4, Exec.start, Exec.slog,
              Exec.httpError]; rfl⟩
        | some val =>
          cases val with
          | str s =>
            cases h5 : Atoi s with
            | error e =>
              exact ⟨store, _, [], by simp, fun next => by
                simp only [ProtectMiddleware, h1, h2, h3, h4, h5, Exec.start, Exec.slog,
                  Exec.httpError]; rfl⟩
            | ok id =>
              cases h6 : (S.GetUserById id store).1 with
              | error e =>
                exact ⟨(S.GetUserById id store).2, _, [Event.GetUserById id],
                  by simp [Event.isNext], fun next => by
                  simp only [ProtectMiddleware, h1, h2, h3, h4, h5, h6, Exec.start, Exec.slog,
                    Exec.emit, Exec.httpError]; rfl⟩
              | ok user =>
                exact absurd ⟨user, c, tok, cl, s, id, h1, h2, h3, h4, h5, h6⟩ h
          | null =>
            exact ⟨store, _, [], by simp, fun next => by
              simp only [ProtectMiddleware, h1, h2, h3, h4, Exec.start, Exec.slog,
                Exec.httpError]; rfl⟩
          | bytes b =>
            exact ⟨store, _, [], by simp, fun next => by
              simp only [ProtectMiddleware, h1, h2, h3, h4, Exec.start, Exec.slog,
                Exec.httpError]; rfl⟩
          | num n =>
            exact ⟨store, _, [], by simp, fun next => by
              simp only [ProtectMiddleware, h1, h2, h3, h4, Exec.start, Exec.slog,
                Exec.httpError]; rfl⟩
          | bool b =>
            exact ⟨store, _, [], by simp, fun next => by
              simp only [ProtectMiddleware, h1, h2, h3, h4, Exec.start, Exec.slog,
                Exec.httpError]; rfl⟩
          | other j =>
            exact ⟨store, _, [], by simp, fun next => by
              simp only [ProtectMiddleware, h1, h2, h3, h4, Exec.start, Exec.slog,
                Exec.httpError]; rfl⟩

/-- Claim C3: the middleware passes the request on (an `Event.next` in its trace) if
and only if the request is `Authorized`; then the result is one application of the
wrapped handler, to a writer nothing was written to and a request whose context holds
the user found, with exactly one `Event.next` recorded; otherwise the response is
401 "not authorized", no `Event.next` is recorded, and the result does not depend on
the wrapped handler. -/
theorem ProtectMiddleware_gate {σ : Type} (lib : Lib) (S : Storage σ) (now : Int)
    (next : Exec σ → Request → Exec σ) (store : σ) (r : Request) :
    ((∃ r1, Event.next r1 ∈
        (ProtectMiddleware lib S now (fun x _ => x) (Exec.start store) r).trace) ↔
      ∃ user, Authorized lib S now store r user) ∧
    (∀ user, Authorized lib S now store r user →
      ∃ x1, ProtectMiddleware lib S now next (Exec.start store) r
          = next x1 (r.WithValue ContextKeyUser user) ∧
        x1.w = ResponseWriter.fresh ∧
        x1.trace.filter Event.isNext = [Event.next (r.WithValue ContextKeyUser user)] ∧
        (r.WithValue ContextKeyUser user).Value ContextKeyUser = some user) ∧
    ((¬ ∃ user, Authorized lib S now store r user) →
      (ProtectMiddleware lib S now next (Exec.start store) r).w.status = StatusUnauthorized ∧
      (ProtectMiddleware lib S now next (Exec.start store) r).w.body = "not authorized" ++ "\n" ∧
      (ProtectMiddleware lib S now next (Exec.start store) r).trace.filter Event.isNext = [] ∧
      ProtectMiddleware lib S now next (Exec.start store) r
        = ProtectMiddleware lib S now (fun x _ => x) (Exec.start store) r) := by
  refine ⟨?_, ?_, ?_⟩
  · by_cases hA : ∃ user, Authorized lib S now store r user
    · obtain ⟨user, hu⟩ := hA
      obtain ⟨userId, hpass⟩ := ProtectMiddleware_pass lib S now (fun x _ => x) store r user hu
      refine ⟨fun _ => ⟨user, hu⟩, fun _ => ⟨r.WithValue ContextKeyUser user, ?_⟩⟩
      rw [hpass]
      simp
    · obtain ⟨store1, msg, tr, htr, hrej⟩ := ProtectMiddleware_reject lib S now store r hA
      refine ⟨fun hmem => ?_, fun h => absurd h hA⟩
      obtain ⟨r1, hr1⟩ := hmem
      rw [hrej] at hr1
      have := htr _ hr1
      simp [Event.isNext] at this
  · intro user hu
    obtain ⟨userId, hpass⟩ := ProtectMiddleware_pass lib S now next store r user hu
    refine ⟨_, hpass, rfl, ?_, ?_⟩
    · simp [Event.isNext]
    · simp [Request.Value, Request.WithValue, List.lookup]
  · intro hA
    obtain ⟨store1, msg, tr, htr, hrej⟩ := ProtectMiddleware_reject lib S now store r hA
    rw [hrej next, hrej (fun x _ => x), HttpError_fresh]
    refine ⟨rfl, rfl, ?_, rfl⟩
    simp only [List.filter_eq_nil_iff]
    intro ev hev
    simp [htr ev hev]

/-- Registering `alice` a second time in the demo store leaves two `alice` records. -/
theorem HandleRegister_duplicate_creates_user_witness :
    demoLib.jsonDecodeUser (demoRequest "alice:pw" []).Body
      = .ok { Id := 0, Username := "alice", PasswordHashed := "pw", ChatIds := [] } ∧
    (memStore.GetUserByUsername "alice" [alice]).1 = .ok alice ∧
    (HandleRegister demoLib memStore 0 (Exec.start [alice]) (demoRequest "alice:pw" [])).w.status
      = 400 ∧
    Event.CreateUser { Id := 0, Username := "alice", PasswordHashed := "$2a$10$pw", ChatIds := [] }
      ∈ (HandleRegister demoLib memStore 0 (Exec.start [alice]) (demoRequest "alice:pw" [])).trace ∧
    (HandleRegister demoLib memStore 0 (Exec.start [alice]) (demoRequest "alice:pw" [])).store
      = [alice, { Id := 2, Username := "alice", PasswordHashed := "$2a$10$pw", ChatIds := [] }] :=
  ⟨by decide, by decide,
    HandleRegister_duplicate_creates_user demoLib memStore 0 [alice] (demoRequest "alice:pw" [])
      { Id := 0, Username := "alice", PasswordHashed := "pw", ChatIds := [] } alice "$2a$10$pw"
      (by decide) (by decide) (by decide)⟩

/-- Registering `alice` a second time with a password of 73 bytes is answered with 400. -/
theorem HandleRegister_hash_failure_after_duplicate_witness :
    (HandleRegister demoLib memStore 0 (Exec.start [alice])
      (demoRequest ("alice:" ++ longPassword) [])).w.status = 400 ∧
    (HandleRegister demoLib memStore 0 (Exec.start [alice])
      (demoRequest ("alice:" ++ longPassword) [])).w.body
        = "username alice is taken\ninternal server error\n" :=
  ⟨(HandleRegister_hash_failure_after_duplicate demoLib memStore 0 [alice]
      (demoRequest ("alice:" ++ longPassword) [])
      { Id := 0, Username := "alice", PasswordHashed := longPassword, ChatIds := [] } alice
      "bcrypt: password length exceeds 72 bytes" (by decide) (by decide) (by decide)).1,
   (HandleRegister_hash_failure_after_duplicate demoLib memStore 0 [alice]
      (demoRequest ("alice:" ++ longPassword) [])
      { Id := 0, Username := "alice", PasswordHashed := longPassword, ChatIds := [] } alice
      "bcrypt: password length exceeds 72 bytes" (by decide) (by decide) (by decide)).2.2.1⟩

/-- Logging in as the unknown `bob`, and as `alice` with a wrong password, in the demo store. -/
theorem HandleLogin_rejections_witness :
    (HandleLogin demoLib memStore 0 (Exec.start [alice]) (demoRequest "bob:pw" [])).w.status = 404 ∧
    (HandleLogin demoLib memStore 0 (Exec.start [alice]) (demoRequest "bob:pw" [])).store
      = [alice] ∧
    (HandleLogin demoLib memStore 0 (Exec.start [alice]) (demoRequest "alice:pw" [])).w.status
      = 400 ∧
    (HandleLogin demoLib memStore 0 (Exec.start [alice]) (demoRequest "alice:pw" [])).trace
      = [Event.GetUserByUsername "alice"] :=
  ⟨((HandleLogin_rejections demoLib memStore 0 [alice] (demoRequest "bob:pw" [])
      { Id := 0, Username := "bob", PasswordHashed := "pw", ChatIds := [] } (by decide)).1
      "scan error: sql: no rows in result set" (by decide)).1,
   ((HandleLogin_rejections demoLib memStore 0 [alice] (demoRequest "bob:pw" [])
      { Id := 0, Username := "bob", PasswordHashed := "pw", ChatIds := [] } (by decide)).1
      "scan error: sql: no rows in result set" (by decide)).2.2.2.2.2.2,
   ((HandleLogin_rejections demoLib memStore 0 [alice] (demoRequest "alice:pw" [])
      { Id := 0, Username := "alice", PasswordHashed := "pw", ChatIds := [] } (by decide)).2
      alice (by decide) (by decide)).1,
   ((HandleLogin_rejections demoLib memStore 0 [alice] (demoRequest "alice:pw" [])
      { Id := 0, Username := "alice", PasswordHashed := "pw", ChatIds := [] } (by decide)).2
      alice (by decide) (by decide)).2.2.1⟩

/-- Three messages and two ids: the first two get their ids, the third keeps its own. -/
theorem CreateMessages_assigns_ids_witness :
    ∃ out, CreateMessages (fun _ _ => .ok [.ok 7, .ok 9]) demoMessages = .ok out ∧
      out.length = 3 ∧
      out[0]? = some { Id := 7, ChatId := 1, Text := "hi", AuthorName := "alice", Timestamp := 10 } ∧
      out[2]? = some { Id := 0, ChatId := 1, Text := "hm", AuthorName := "alice", Timestamp := 20 } :=
  (CreateMessages_assigns_ids (fun _ _ => .ok [.ok 7, .ok 9]) demoMessages [7, 9] rfl
    (by decide)).imp (fun _ h => ⟨h.1, h.2.1, h.2.2.1 0, h.2.2.1 2⟩)

/-- The accepted demo token has an HMAC header and the signature made with `JwtSecret`. -/
theorem ValidateJWT_key_and_signature_witness :
    ∃ p0 p1 p2 alg name hash, Split (demoToken (StringBytes JwtSecret)) '.' = [p0, p1, p2] ∧
      demoParsed.Header.lookup "alg" = some (Any.str alg) ∧
      GetSigningMethod alg = some (SigningMethod.HMAC name hash) ∧
      demoParsed.Method = SigningMethod.HMAC name hash ∧
      demoLib.DecodeSegment p2 = .ok (hmacSum (demoLib.hashSum hash) hash.BlockSize
        (StringBytes JwtSecret) (StringBytes (p0 ++ "." ++ p1))) :=
  (ValidateJWT_key_and_signature demoLib 0).2.2 _ _ ValidateJWT_demoToken

/-- The demo request with the demo token is authorized as `alice`. -/
theorem Authorized_demo :
    Authorized demoLib memStore 0 [alice]
      (demoRequest "" [("accessToken", demoToken (StringBytes JwtSecret))]) alice :=
  ⟨demoToken (StringBytes JwtSecret), demoParsed, [("userId", Any.str "1")], "1", 1,
    by decide, ValidateJWT_demoToken, rfl, by decide, by decide, by decide⟩

/-- The demo request with a valid token for `alice` is passed on; one without a cookie is answered with 401. -/
theorem ProtectMiddleware_gate_witness :
    (∃ x1, ProtectMiddleware demoLib memStore 0 (fun x _ => x) (Exec.start [alice])
        (demoRequest "" [("accessToken", demoToken (StringBytes JwtSecret))])
        = (fun x _ => x) x1
          ((demoRequest "" [("accessToken", demoToken (StringBytes JwtSecret))]).WithValue
            ContextKeyUser alice) ∧
      x1.w = ResponseWriter.fresh ∧
      x1.trace.filter Event.isNext =
        [Event.next ((demoRequest "" [("accessToken", demoToken (StringBytes JwtSecret))]).WithValue
          ContextKeyUser alice)] ∧
      ((demoRequest "" [("accessToken", demoToken (StringBytes JwtSecret))]).WithValue
        ContextKeyUser alice).Value ContextKeyUser = some alice) ∧
    (ProtectMiddleware demoLib memStore 0 (fun x _ => x) (Exec.start [alice])
      (demoRequest "" [])).w.status = 401 :=
  ⟨(ProtectMiddleware_gate demoLib memStore 0 (fun x _ => x) [alice]
      (demoRequest "" [("accessToken", demoToken (StringBytes JwtSecret))])).2.1 alice
      Authorized_demo,
   ((ProtectMiddleware_gate demoLib memStore 0 (fun x _ => x) [alice]
      (demoRequest "" [])).2.2 (by
        rintro ⟨user, c, tok, cl, s, id, h1, _⟩
        rw [show (demoRequest "" []).Cookie "accessToken" = .error ErrNoCookie from by decide]
          at h1
        exact Except.noConfusion h1)).1⟩

/-- The value of a digit character. -/
theorem digitVal_digitChar (k : Nat) (h : k < 10) : digitVal (Nat.digitChar k) = some k := by
  interval_cases k <;> decide

/-- A digit character is no sign. -/
theorem digitChar_not_sign (k : Nat) (h : k < 10) :
    Nat.digitChar k ≠ '-' ∧ Nat.digitChar k ≠ '+' := by
  interval_cases k <;> decide

/-- Parsing the digits `Nat.toDigitsCore` puts in front of `ds`. -/
theorem parseDigits_toDigitsCore (fuel : Nat) :
    ∀ (n : Nat) (ds : List Char), n < fuel →
      parseDigits (Nat.toDigitsCore 10 fuel n ds) 0 = parseDigits ds n := by
  induction fuel with
  | zero => intro n ds h; omega
  | succ fuel ih =>
    intro n ds h
    have hd : digitVal (Nat.digitChar (n % 10)) = some (n % 10) :=
      digitVal_digitChar _ (Nat.mod_lt _ (by decide))
    simp only [Nat.toDigitsCore]
    split
    · rename_i h0
      have hn : n % 10 = n := by omega
      simp only [parseDigits, hd]
      simp [hn]
    · rename_i h0
      rw [ih (n / 10) _ (by omega)]
      simp only [parseDigits, hd]
      congr 1
      omega

/-- The output of `Nat.toDigitsCore` starts with a digit. -/
theorem toDigitsCore_head (fuel : Nat) :
    ∀ (n : Nat) (ds : List Char), n < fuel →
      ∃ k cs, k < 10 ∧ Nat.toDigitsCore 10 fuel n ds = Nat.digitChar k :: cs := by
  induction fuel with
  | zero => intro n ds h; omega
  | succ fuel ih =>
    intro n ds h
    simp only [Nat.toDigitsCore]
    split
    · exact ⟨n % 10, ds, Nat.mod_lt _ (by decide), rfl⟩
    · exact ih (n / 10) _ (by omega)

/-- The decimal string of a natural number parses back to it and starts with a digit. -/
theorem repr_digits (n : Nat) :
    ∃ c cs, (Nat.repr n).data = c :: cs ∧ c ≠ '-' ∧ c ≠ '+' ∧
      parseDigits (c :: cs) 0 = some n := by
  obtain ⟨k, cs, hk, hcs⟩ := toDigitsCore_head (n + 1) n [] (by omega)
  have hp := parseDigits_toDigitsCore (n + 1) n [] (by omega)
  refine ⟨Nat.digitChar k, cs, ?_, (digitChar_not_sign k hk).1, (digitChar_not_sign k hk).2, ?_⟩
  · simp only [Nat.repr, Nat.toDigits, List.asString]
    exact hcs
  · rw [← hcs, hp]
    rfl

/-- Within the range of `int`, `Atoi` undoes `Itoa`. -/
theorem Atoi_Itoa (i : Int) (hlo : -(2 : Int) ^ 63 ≤ i) (hhi : i < (2 : Int) ^ 63) :
    Atoi (Itoa i) = .ok i := by
  obtain ⟨c, cs, hdata, hm, hp, hparse⟩ := repr_digits i.natAbs
  by_cases hneg : i < 0
  · have hs : (Itoa i).data = '-' :: c :: cs := by
      simp only [Itoa, hneg, if_true, String.data_append, hdata]
      rfl
    simp only [Atoi, hs]
    simp only [decide_True, true_or, if_true, hparse]
    have h1 : i.natAbs ≤ 2 ^ 63 := by omega
    simp only [h1, if_true]
    congr 1
    omega
  · have hs : (Itoa i).data = c :: cs := by
      simp only [Itoa, hneg, if_false, hdata]
    simp only [Atoi, hs]
    simp only [hm, hp, decide_False, or_self, if_false, hparse]
    have h1 : i.natAbs < 2 ^ 63 := by omega
    have h0 : 0 ≤ i := by omega
    simp only [h1, if_true]
    simp [Int.natAbs_of_nonneg h0]

/-- Splitting a run without the separator. -/
theorem splitAux_last (sep : Char) (a : List Char) (h : sep ∉ a) :
    ∀ cur : List Char, splitAux sep a cur = [String.mk (cur.reverse ++ a)] := by
  induction a with
  | nil => intro cur; simp [splitAux]
  | cons c cs ih =>
    intro cur
    have hc : c ≠ sep := fun e => h (by simp [e])
    have hcs : sep ∉ cs := fun e => h (by simp [e])
    rw [splitAux, if_neg hc, ih hcs]
    simp

/-- Splitting off a first run without the separator. -/
theorem splitAux_segment (sep : Char) (a rest : List Char) (h : sep ∉ a) :
    ∀ cur : List Char, splitAux sep (a ++ sep :: rest) cur
      = String.mk (cur.reverse ++ a) :: splitAux sep rest [] := by
  induction a with
  | nil => intro cur; simp [splitAux]
  | cons c cs ih =>
    intro cur
    have hc : c ≠ sep := fun e => h (by simp [e])
    have hcs : sep ∉ cs := fun e => h (by simp [e])
    rw [List.cons_append, splitAux, if_neg hc, ih hcs]
    simp

/-- Splitting three dot-free segments joined by dots gives the segments back. -/
theorem Split_three (a b c : String) (ha : '.' ∉ a.data) (hb : '.' ∉ b.data)
    (hc : '.' ∉ c.data) : Split (a ++ "." ++ b ++ "." ++ c) '.' = [a, b, c] := by
  have hd : (a ++ "." ++ b ++ "." ++ c).data = a.data ++ '.' :: (b.data ++ '.' :: c.data) := by
    simp [String.data_append]
  simp only [Split, hd]
  rw [splitAux_segment _ _ _ ha, splitAux_segment _ _ _ hb, splitAux_last _ _ hc]
  simp

/-- With the key converted as `ValidateJWT` converts it, the token for a user id is
signed, accepted at every time, and its `userId` claim parses back to the user id:
for every library instance whose encodings of the three segments can be undone. -/
theorem SignedString_bytes_round_trip (lib : Lib) (now : Int) (userId : Int)
    (headerJSON claimsJSON : List Nat)
    (hlo : -(2 : Int) ^ 63 ≤ userId) (hhi : userId < (2 : Int) ^ 63)
    (hmh : lib.jsonMarshalMap [("typ", Any.str "JWT"), ("alg", Any.str "HS256")] = .ok headerJSON)
    (hmc : lib.jsonMarshalMap [("userId", Any.str (Itoa userId))] = .ok claimsJSON)
    (huh : lib.jsonUnmarshalMap headerJSON = .ok [("typ", Any.str "JWT"), ("alg", Any.str "HS256")])
    (huc : lib.jsonDecodeMap claimsJSON = .ok [("userId", Any.str (Itoa userId))])
    (hdec : ∀ b ∈ [headerJSON, claimsJSON,
      hmacSum (lib.hashSum HashAlg.SHA256) HashAlg.SHA256.BlockSize (StringBytes JwtSecret)
        (StringBytes (lib.EncodeSegment headerJSON ++ "." ++ lib.EncodeSegment claimsJSON))],
      lib.DecodeSegment (lib.EncodeSegment b) = .ok b ∧ '.' ∉ (lib.EncodeSegment b).data) :
    ∃ tokenString token,
      (NewWithClaims SigningMethodHS256 (CreateJWT.claims userId)).SignedString lib
        (Any.bytes (StringBytes JwtSecret)) = .ok tokenString ∧
      ValidateJWT lib now tokenString = .ok token ∧
      token.Claims = Claims.MapClaims [("userId", Any.str (Itoa userId))] ∧
      Atoi (Itoa userId) = .ok userId := by
  have hsplit := Split_three (lib.EncodeSegment headerJSON) (lib.EncodeSegment claimsJSON)
    (lib.EncodeSegment (hmacSum (lib.hashSum HashAlg.SHA256) HashAlg.SHA256.BlockSize
      (StringBytes JwtSecret)
      (StringBytes (lib.EncodeSegment headerJSON ++ "." ++ lib.EncodeSegment claimsJSON))))
    (hdec _ (by simp)).2 (hdec _ (by simp)).2 (hdec _ (by simp)).2
  have hd0 := (hdec headerJSON (by simp)).1
  have hd1 := (hdec claimsJSON (by simp)).1
  have hd2 := (hdec (hmacSum (lib.hashSum HashAlg.SHA256) HashAlg.SHA256.BlockSize
    (StringBytes JwtSecret)
    (StringBytes (lib.EncodeSegment headerJSON ++ "." ++ lib.EncodeSegment claimsJSON)))
    (by simp)).1
  have hsigned : (NewWithClaims SigningMethodHS256 (CreateJWT.claims userId)).SignedString lib
      (Any.bytes (StringBytes JwtSecret)) =
      .ok (lib.EncodeSegment headerJSON ++ "." ++ lib.EncodeSegment claimsJSON ++ "." ++
        lib.EncodeSegment (hmacSum (lib.hashSum HashAlg.SHA256) HashAlg.SHA256.BlockSize
          (StringBytes JwtSecret)
          (StringBytes (lib.EncodeSegment headerJSON ++ "." ++ lib.EncodeSegment claimsJSON)))) := by
    simp only [Token.SignedString, Token.SigningString, NewWithClaims, SigningMethodHS256,
      SigningMethod.Alg, CreateJWT.claims, Claims.fields, hmh, hmc, SigningMethod.Sign]
  have hparse : ParseUnverified lib
      (lib.EncodeSegment headerJSON ++ "." ++ lib.EncodeSegment claimsJSON ++ "." ++
        lib.EncodeSegment (hmacSum (lib.hashSum HashAlg.SHA256) HashAlg.SHA256.BlockSize
          (StringBytes JwtSecret)
          (StringBytes (lib.EncodeSegment headerJSON ++ "." ++ lib.EncodeSegment claimsJSON)))) =
      .ok ({ Raw := lib.EncodeSegment headerJSON ++ "." ++ lib.EncodeSegment claimsJSON ++ "." ++
              lib.EncodeSegment (hmacSum (lib.hashSum HashAlg.SHA256) HashAlg.SHA256.BlockSize
                (StringBytes JwtSecret)
                (StringBytes (lib.EncodeSegment headerJSON ++ "." ++
                  lib.EncodeSegment claimsJSON)))
             Method := SigningMethodHS256
             Header := [("typ", Any.str "JWT"), ("alg", Any.str "HS256")]
             Claims := Claims.MapClaims [("userId", Any.str (Itoa userId))]
             Signature := ""
             Valid := false },
           lib.EncodeSegment headerJSON, lib.EncodeSegment claimsJSON,
           lib.EncodeSegment (hmacSum (lib.hashSum HashAlg.SHA256) HashAlg.SHA256.BlockSize
             (StringBytes JwtSecret)
             (StringBytes (lib.EncodeSegment headerJSON ++ "." ++
               lib.EncodeSegment claimsJSON)))) := by
    simp only [ParseUnverified, hsplit, hd0, hd1, huh, huc]
    rfl
  refine ⟨_, _, hsigned, (ValidateJWT_ok_iff lib now _ _).mpr
    ⟨_, _, _, _, hparse, ⟨"HS256", HashAlg.SHA256, rfl⟩, ?_, ?_, rfl⟩, rfl,
    Atoi_Itoa userId hlo hhi⟩
  · simp only [SigningMethodHS256, SigningMethod.Verify, hd2, if_true]
  · exact CreateJWT_claims_valid userId now

/-- The round trip in the demo instance, for user 1. -/
theorem SignedString_bytes_round_trip_witness :
    ∃ tokenString token,
      (NewWithClaims SigningMethodHS256 (CreateJWT.claims 1)).SignedString demoLib
        (Any.bytes (StringBytes JwtSecret)) = .ok tokenString ∧
      ValidateJWT demoLib 0 tokenString = .ok token ∧
      token.Claims = Claims.MapClaims [("userId", Any.str (Itoa 1))] ∧
      Atoi (Itoa 1) = .ok 1 :=
  SignedString_bytes_round_trip demoLib 0 1 (StringBytes "typ=JWT;alg=HS256;")
    (StringBytes "userId=1;") (by decide) (by decide) (by decide) (by decide) (by decide)
    (by decide) (by decide)

end GChat
